import Mathlib

/-!
Verification development for the KSeF invoice-fetching client
(`ksef_auth.py`, `ksef_invoices.py`, `main.py`).

The Python modules are embedded shallowly:
* calendar dates (`datetime.date` restricted to the fields the code uses)
  become a `Date` structure with explicit Gregorian month lengths;
* `dateutil.relativedelta(months=3)` becomes `Date.addMonths` (month
  arithmetic with day-of-month clamping, exactly dateutil's semantics);
* the network is a deterministic environment: each HTTP interaction is a
  value of a response type supplied as a function argument, and loops over
  the network are fuel-indexed so that every definition is executable;
* exceptions become `Except` results.
-/

namespace KSeF

/-! ## Calendar dates (`datetime.date` / `datetime.datetime` at day granularity)

`ksef_invoices.fetch_all` manipulates `datetime` values obtained from
`strptime(s[:10], "%Y-%m-%d")`, i.e. midnight-of-day values; only the
(year, month, day) triple is relevant to the windowing logic. -/

structure Date where
  y : Nat
  m : Nat
  d : Nat
deriving Repr, DecidableEq

/-- Gregorian leap-year rule (as implemented by Python's `calendar`/`datetime`). -/
def isLeap (y : Nat) : Bool :=
  (y % 4 == 0 && y % 100 != 0) || y % 400 == 0

/-- Number of days in month `m` of year `y` (Python `calendar.monthrange`). -/
def daysInMonth (y m : Nat) : Nat :=
  if m = 2 then (if isLeap y then 29 else 28)
  else if m = 4 ∨ m = 6 ∨ m = 9 ∨ m = 11 then 30
  else 31

/-- A valid `datetime.date`: month in 1..12, day in 1..daysInMonth. -/
def Date.Valid (dt : Date) : Prop :=
  1 ≤ dt.m ∧ dt.m ≤ 12 ∧ 1 ≤ dt.d ∧ dt.d ≤ daysInMonth dt.y dt.m

instance (dt : Date) : Decidable dt.Valid := by
  unfold Date.Valid; infer_instance

/-- Linearisation of a date used for comparison: strictly monotone with
respect to the calendar order on valid dates (month offsets are bounded by
31 and `(m-1)*31 + (d-1) ≤ 11*31 + 30 = 371 < 372`). -/
def Date.ord (dt : Date) : Nat :=
  dt.y * 372 + (dt.m - 1) * 31 + (dt.d - 1)

/-- `datetime` comparison (`<=` on dates). -/
def Date.le (a b : Date) : Bool :=
  a.ord ≤ b.ord

/-- `min` of two dates as used in `fetch_all` (`min(start + ..., dt_to)`). -/
def Date.minD (a b : Date) : Date :=
  if a.ord ≤ b.ord then a else b

/-- `dt + timedelta(days=1)`. -/
def Date.nextDay (dt : Date) : Date :=
  if dt.d < daysInMonth dt.y dt.m then ⟨dt.y, dt.m, dt.d + 1⟩
  else if dt.m < 12 then ⟨dt.y, dt.m + 1, 1⟩
  else ⟨dt.y + 1, 1, 1⟩

/-- `dt - timedelta(days=1)`. -/
def Date.prevDay (dt : Date) : Date :=
  if 1 < dt.d then ⟨dt.y, dt.m, dt.d - 1⟩
  else if 1 < dt.m then ⟨dt.y, dt.m - 1, daysInMonth dt.y (dt.m - 1)⟩
  else ⟨dt.y - 1, 12, 31⟩

/-- `dt + relativedelta(months=k)`: dateutil adds `k` to the month with
year carry and clamps the day to the target month's length. -/
def Date.addMonths (dt : Date) (k : Nat) : Date :=
  let mm := dt.m - 1 + k
  let y := dt.y + mm / 12
  let m := mm % 12 + 1
  ⟨y, m, min dt.d (daysInMonth y m)⟩

/-! ## Date windows (`KSeFInvoices.fetch_all`)

`fetch_all` walks the range with
`window_end = min(window_start + relativedelta(months=3) - timedelta(days=1), dt_to)`
and `window_start = window_end + timedelta(days=1)`, emitting one window
per iteration.  The while-loop is embedded with a fuel argument; the fuel
`dt_to.ord + 1 - dt_from.ord` used in `fetchAllWindows` strictly exceeds
the number of iterations because `window_start` strictly increases. -/

structure DateWindow where
  window_start : Date
  window_end : Date
deriving Repr, DecidableEq

/-- One window-producing iteration of the `while window_start <= dt_to` loop
in `KSeFInvoices.fetch_all` (fuel-indexed). -/
def fetchAllWindowsAux (dtTo : Date) : Nat → Date → List DateWindow
  | 0, _ => []
  | fuel + 1, ws =>
    if ws.ord ≤ dtTo.ord then
      ⟨ws, Date.minD ((ws.addMonths 3).prevDay) dtTo⟩ ::
        fetchAllWindowsAux dtTo fuel (Date.minD ((ws.addMonths 3).prevDay) dtTo).nextDay
    else []

/-- The DateWindow sequence generated by `KSeFInvoices.fetch_all` for the
parsed range `[dt_from, dt_to]`. -/
def fetchAllWindows (dtFrom dtTo : Date) : List DateWindow :=
  fetchAllWindowsAux dtTo (dtTo.ord + 1 - dtFrom.ord) dtFrom

/-! ## Environment selection (`ksef_auth.BASE_URLS` / `main.BASE_URLS`)

Both modules hold a two-entry dict and select with
`BASE_URLS.get(env, BASE_URLS["test"])`. -/

def authTestUrl : String := "https://api-test.ksef.mf.gov.pl/api/v2"
def authProdUrl : String := "https://api.ksef.mf.gov.pl/api/v2"

/-- `KSeFAuth.__init__`: `self.base_url = BASE_URLS.get(env, BASE_URLS["test"])`. -/
def authBaseUrl (env : String) : String :=
  if env = "test" then authTestUrl
  else if env = "prod" then authProdUrl
  else authTestUrl

/-- `main.BASE_URL = BASE_URLS.get(ENV, BASE_URLS["test"])` (same dict literal,
repeated in `main.py`). -/
def mainBaseUrl (env : String) : String :=
  if env = "test" then authTestUrl
  else if env = "prod" then authProdUrl
  else authTestUrl

/-! ## Page fetching (`KSeFInvoices._query_page` / `_fetch_window` / `fetch_all`)

The HTTP transport is a deterministic reply stream `env : Nat → Reply`
indexed by the number of requests issued so far; `FetchState.reqIndex`
counts issued requests.  Wall-clock sleeps are recorded in
`FetchState.sleeps` (only the 429 retry sleeps of `_query_page`; the fixed
0.3 s inter-page and 185 s inter-window pacing sleeps change no data and
are not recorded).  `KSeFAuth.authenticate` called from the 401 branch is
represented by bumping the token generation `authGen` and storing the
fresh bearer header snapshot in `headers`, exactly mirroring
`self.auth.authenticate(); self.auth_headers = self.auth.get_auth_headers()`. -/

/-- `SLEEP_BETWEEN_WINDOWS = 185` in `ksef_invoices.py`. -/
def SLEEP_BETWEEN_WINDOWS : Nat := 185

/-- `SUBJECT_TYPE_LABELS.get(subject_type, subject_type)`. -/
def subjectTypeLabel (s : String) : String :=
  if s = "Subject1" then "Wystawione (sprzedaż)"
  else if s = "Subject2" then "Otrzymane (zakupy/koszty)"
  else s

/-- An invoice record: opaque server payload plus the synthetic `_typ`
field written by `_fetch_window`. -/
structure Invoice where
  payload : Nat
  typ : String
deriving Repr, DecidableEq

/-- One parsed response body of `/invoices/query/metadata`:
`data.get("invoices", [])` and `data.get("hasMore", False)`. -/
structure Page where
  invoices : List Invoice
  hasMore : Bool
deriving Repr, DecidableEq

/-- One transport-level reply to the `requests.post` call in `_query_page`:
a success body, an HTTP 401, an HTTP 429 with optional Retry-After header,
or any other non-ok status. -/
inductive Reply
  | ok (page : Page)
  | denied
  | throttled (retryAfter : Option Nat)
  | failed (status : Nat)
deriving Repr, DecidableEq

/-- The `KSeFInvoiceError` raised by `_query_page`: either
`_raise_for_status` (HTTP status plus the offset/date context string) or
retry exhaustion after the 5th attempt. -/
inductive FetchFailure
  | http (status : Nat) (offset : Nat) (dateFrom : String)
  | retryLimit (offset : Nat) (dateFrom : String)
deriving Repr, DecidableEq

/-- Mutable state threaded through a fetch run: requests issued so far
(index into the reply stream), current auth-token generation of the
`KSeFAuth` object, the locally held `auth_headers` snapshot (the token
generation it was built from), and the recorded 429 retry sleeps. -/
structure FetchState where
  reqIndex : Nat
  authGen : Nat
  headers : Nat
  sleeps : List Nat
deriving Repr, DecidableEq

/-- The `for attempt in range(1, 6)` retry loop of `_query_page`, with
`attempts` remaining iterations.  A 401 with an attached auth session
re-authenticates in place and retries; a 429 sleeps
`int(Retry-After, default 185) + 2` seconds and retries; any other non-ok
status raises via `_raise_for_status`; a success returns the parsed page. -/
def queryPageAux (env : Nat → Reply) (hasAuth : Bool) (offset : Nat) (dateFrom : String) :
    Nat → FetchState → Except FetchFailure (Page × FetchState)
  | 0, _ => .error (.retryLimit offset dateFrom)
  | attempts + 1, st =>
    match env st.reqIndex with
    | .ok page => .ok (page, { st with reqIndex := st.reqIndex + 1 })
    | .denied =>
      if hasAuth then
        queryPageAux env hasAuth offset dateFrom attempts
          { st with reqIndex := st.reqIndex + 1,
                    authGen := st.authGen + 1, headers := st.authGen + 1 }
      else .error (.http 401 offset dateFrom)
    | .throttled retryAfter =>
      queryPageAux env hasAuth offset dateFrom attempts
        { st with reqIndex := st.reqIndex + 1,
                  sleeps := st.sleeps ++ [retryAfter.getD SLEEP_BETWEEN_WINDOWS + 2] }
    | .failed status => .error (.http status offset dateFrom)

/-- `_query_page`: at most 5 attempts. -/
def queryPage (env : Nat → Reply) (hasAuth : Bool) (offset : Nat) (dateFrom : String)
    (st : FetchState) : Except FetchFailure (Page × FetchState) :=
  queryPageAux env hasAuth offset dateFrom 5 st

/-- The `while True` pagination loop of `_fetch_window` (fuel-indexed;
`none` means the loop is still running after `fuel` pages).  Stops on an
empty page or on `hasMore = false`; otherwise tags the records with the
category label, extends the accumulator, advances the offset by the page
record count and continues. -/
def fetchWindowAux (env : Nat → Reply) (hasAuth : Bool) (label dateFrom : String) :
    Nat → Nat → List Invoice → FetchState →
    Option (Except FetchFailure (List Invoice × FetchState))
  | 0, _, _, _ => none
  | fuel + 1, offset, acc, st =>
    match queryPage env hasAuth offset dateFrom st with
    | .error e => some (.error e)
    | .ok (page, st') =>
      if page.invoices.isEmpty then some (.ok (acc, st'))
      else
        let tagged := page.invoices.map fun inv => { inv with typ := label }
        if page.hasMore then
          fetchWindowAux env hasAuth label dateFrom fuel
            (offset + page.invoices.length) (acc ++ tagged) st'
        else some (.ok (acc ++ tagged, st'))

/-- `_fetch_window`: pagination starts at offset 0 with an empty
accumulator. -/
def fetchWindow (env : Nat → Reply) (hasAuth : Bool) (label dateFrom : String)
    (fuel : Nat) (st : FetchState) :
    Option (Except FetchFailure (List Invoice × FetchState)) :=
  fetchWindowAux env hasAuth label dateFrom fuel 0 [] st

/-- `strftime("%Y-%m-%dT%H:%M:%S.000Z")` padding helpers. -/
def pad2 (n : Nat) : String :=
  if n < 10 then "0" ++ toString n else toString n

def pad4 (n : Nat) : String :=
  if n < 10 then "000" ++ toString n
  else if n < 100 then "00" ++ toString n
  else if n < 1000 then "0" ++ toString n
  else toString n

/-- `KSeFInvoices.to_iso` on a date: start-of-day or end-of-day ISO-8601
millisecond UTC string. -/
def toIso (dt : Date) (endOfDay : Bool) : String :=
  pad4 dt.y ++ "-" ++ pad2 dt.m ++ "-" ++ pad2 dt.d ++
    (if endOfDay then "T23:59:59.000Z" else "T00:00:00.000Z")

/-- The window loop of `fetch_all` over an explicit window list: fetch each
window in order, extend the global accumulator, propagate errors.  The
185 s inter-window sleeps change no data and are not recorded. -/
def fetchAllRun (env : Nat → Reply) (hasAuth : Bool) (label : String) (fuel : Nat) :
    List DateWindow → List Invoice → FetchState →
    Option (Except FetchFailure (List Invoice × FetchState))
  | [], acc, st => some (.ok (acc, st))
  | w :: rest, acc, st =>
    match fetchWindow env hasAuth label (toIso w.window_start false) fuel st with
    | none => none
    | some (.error e) => some (.error e)
    | some (.ok (batch, st')) => fetchAllRun env hasAuth label fuel rest (acc ++ batch) st'

/-- `KSeFInvoices.fetch_all`: partition the range into windows (the same
loop as `fetchAllWindows`) and fetch them in order. -/
def fetchAllModel (env : Nat → Reply) (hasAuth : Bool) (subjectType : String)
    (dtFrom dtTo : Date) (fuel : Nat) (st : FetchState) :
    Option (Except FetchFailure (List Invoice × FetchState)) :=
  fetchAllRun env hasAuth (subjectTypeLabel subjectType) fuel
    (fetchAllWindows dtFrom dtTo) [] st

/-! ### Failure scripts for the recovery claims

A run in which every page request fails a few times with 401/429 and then
succeeds is described by a script: for the n-th page request of the run,
`fails n` transient failures are served, then the page `pages n`.
`Serves`/`ServesSeq` say that a reply stream follows such a script. -/

/-- A transient pre-failure of one page request. -/
inductive PreFail
  | denied
  | throttled (retryAfter : Option Nat)
deriving Repr, DecidableEq

def PreFail.toReply : PreFail → Reply
  | .denied => .denied
  | .throttled ra => .throttled ra

/-- Number of 401 replies in a failure list. -/
def count401 : List PreFail → Nat
  | [] => 0
  | .denied :: rest => count401 rest + 1
  | .throttled _ :: rest => count401 rest

/-- The sleeps recorded while absorbing a failure list. -/
def failSleeps : List PreFail → List Nat
  | [] => []
  | .denied :: rest => failSleeps rest
  | .throttled ra :: rest => (ra.getD SLEEP_BETWEEN_WINDOWS + 2) :: failSleeps rest

/-- The reply stream serves, starting at index `r`, the failures `fails`
followed by the successful page `page`. -/
def Serves (env : Nat → Reply) (r : Nat) (fails : List PreFail) (page : Page) : Prop :=
  (∀ i (h : i < fails.length), env (r + i) = (fails.get ⟨i, h⟩).toReply) ∧
  env (r + fails.length) = .ok page

/-- Total number of transient failures served before the n-th page request. -/
def sumFails (fails : Nat → List PreFail) : Nat → Nat
  | 0 => 0
  | n + 1 => sumFails fails n + (fails n).length

/-- The reply stream follows the whole script `(fails, pages)` from index
`r` on: the n-th page request is served `fails n` failures, then `pages n`. -/
def ServesSeq (env : Nat → Reply) (r : Nat) (fails : Nat → List PreFail)
    (pages : Nat → Page) : Prop :=
  ∀ n, Serves env (r + sumFails fails n + n) (fails n) (pages n)

/-- Relation between a run with transient failures and the equivalent clean
run: both still looping, or both finished successfully with the same record
list, each having consumed the same number `m` of successful pages (the
failing run having issued `sumFails fails1 m` extra requests, one retry per
absorbed failure). -/
def SameRecords (r1 r2 : Nat) (fails1 fails2 : Nat → List PreFail)
    (o1 o2 : Option (Except FetchFailure (List Invoice × FetchState))) : Prop :=
  (o1 = none ∧ o2 = none) ∨
  (∃ l st1 st2 m, o1 = some (.ok (l, st1)) ∧ o2 = some (.ok (l, st2)) ∧
    st1.reqIndex = r1 + sumFails fails1 m + m ∧
    st2.reqIndex = r2 + sumFails fails2 m + m)

/-! ### Concrete reply streams used to instantiate the recovery theorems -/

/-- A server whose pages are all empty (each window ends after one page). -/
def c2wPages : Nat → Page := fun _ => ⟨[], false⟩

/-- The first page request fails once with 401, everything else succeeds. -/
def c2wFails : Nat → List PreFail := fun n => if n = 0 then [PreFail.denied] else []

/-- Reply stream realising `c2wFails`/`c2wPages`: request 0 is the 401. -/
def c2wEnv : Nat → Reply := fun k => if k = 0 then .denied else .ok ⟨[], false⟩

/-- The clean reply stream serving the same pages with no failures. -/
def c2wEnvClean : Nat → Reply := fun _ => .ok ⟨[], false⟩

/-- Reply stream for the 429 retry: one throttle with Retry-After 10, then
success. -/
def c3wEnv : Nat → Reply :=
  fun k => if k = 0 then .throttled (some 10) else .ok ⟨[], false⟩

/-- Reply stream that always throttles (exhausts the 5-attempt budget). -/
def c3wEnv429 : Nat → Reply := fun _ => .throttled (some 10)

/-- Reply stream that always answers HTTP 401. -/
def c10wEnv : Nat → Reply := fun _ => .denied

/-! ## Authentication (`ksef_auth.KSeFAuth`)

Every network call of the auth module is parameterised by its HTTP
response (status plus parsed JSON body); `requests.Response.ok` is
`status < 400`.  The `KSeFAuthError` exceptions are distinguished by the
message the source builds. -/

/-- The `KSeFAuthError` kinds of `ksef_auth.py`, one per raise site.  The
`http` kind carries the HTTP status, the context prefix of the message and
the best-effort decoded error body (`resp.json()` if parseable, else the
truncated raw text) interpolated by `_raise_for_status`. -/
inductive AuthErr
  | http (status : Nat) (context : String) (detail : String)
  | noCertificates
  | noCertData
  | noChallenge
  | noAuthToken
  | rejected (code : Nat) (description : String) (details : List String)
  | timeout
  | noAccessToken
  | notAuthenticated
deriving Repr, DecidableEq

/-- An HTTP response: status code, the decoded JSON body, and the
best-effort decoded rendering of the body used in error messages. -/
structure HttpResp (α : Type) where
  status : Nat
  body : α
  detail : String
deriving Repr, DecidableEq

/-- Python `x or y` on an optional string (`None` and `""` are falsy). -/
def pyOr (a : Option String) (b : String) : String :=
  match a with
  | some s => if s = "" then b else s
  | none => b

/-- Python `x or y` keeping the optional result. -/
def pyOrOpt (a b : Option String) : Option String :=
  match a with
  | some s => if s = "" then b else some s
  | none => b

/-- Python `x or y` on optional numbers (`None` and `0` are falsy), as used
for the challenge timestamp. -/
def pyOrNat (a : Option Nat) (b : Nat) : Nat :=
  match a with
  | some n => if n = 0 then b else n
  | none => b

/-- Python truthiness test `not x` on an optional string. -/
def pyFalsyStr (s : Option String) : Bool :=
  match s with
  | none => true
  | some s => s = ""

/-- A token value on the wire: a bare string or an object wrapping an
optional `token` field (response objects are modeled as non-empty dicts,
hence truthy). -/
inductive TokVal
  | str (s : String)
  | obj (token : Option String)
deriving Repr, DecidableEq

/-- Python truthiness of a token value (`""` is falsy, a dict is truthy). -/
def TokVal.truthy : TokVal → Bool
  | .str s => s ≠ ""
  | .obj _ => true

/-- Python `x or y` on optional token values. -/
def pyOrTok (a b : Option TokVal) : Option TokVal :=
  match a with
  | some v => if v.truthy then some v else b
  | none => b

/-- The string-or-object normalization
`access.get("token") if isinstance(access, dict) else access`. -/
def resolveTok : Option TokVal → Option String
  | some (.str s) => some s
  | some (.obj t) => t
  | none => none

/-- One certificate entry of `/security/public-key-certificates`, with the
alternative field names probed by `_get_public_key`. -/
structure CertEntry where
  certificate : Option String
  value : Option String
  publicKey : Option String
deriving Repr, DecidableEq

/-- Body of the public-key response after the list/dict dispatch
`data if isinstance(data, list) else data.get("certificates", [])`. -/
structure PubKeyBody where
  certificates : List CertEntry
deriving Repr, DecidableEq

/-- `KSeFAuth._get_public_key`: raise on non-ok status, then on an empty
certificate list, then probe `certificate`/`value`/`publicKey` in order. -/
def getPublicKey (resp : HttpResp PubKeyBody) : Except AuthErr String :=
  if 400 ≤ resp.status then
    .error (.http resp.status "Błąd pobierania klucza publicznego" resp.detail)
  else
    match resp.body.certificates with
    | [] => .error .noCertificates
    | first :: _ =>
      let der := pyOr first.certificate (pyOr first.value (pyOr first.publicKey ""))
      if der = "" then .error .noCertData else .ok der

/-- Body of `/auth/challenge`, with the alternative field names probed by
`authenticate`. -/
structure ChallengeBody where
  challenge : Option String
  referenceNumber : Option String
  challengeKey : Option String
  timestampMs : Option Nat
  timestamp : Option Nat
deriving Repr, DecidableEq

/-- `KSeFAuth._get_challenge`: raise on non-ok status, return the body. -/
def getChallenge (resp : HttpResp ChallengeBody) : Except AuthErr ChallengeBody :=
  if 400 ≤ resp.status then
    .error (.http resp.status "Błąd pobierania challenge" resp.detail)
  else .ok resp.body

/-- Body of `/auth/ksef-token`: `referenceNumber`/`challenge` and
`authenticationToken.token`/`token`. -/
structure SubmitBody where
  referenceNumber : Option String
  challenge : Option String
  authenticationToken : Option (Option String)
  token : Option String
deriving Repr, DecidableEq

/-- `KSeFAuth._send_ksef_token`: raise on non-ok status, return the body. -/
def sendKsefToken (resp : HttpResp SubmitBody) : Except AuthErr SubmitBody :=
  if 400 ≤ resp.status then
    .error (.http resp.status "Błąd wysyłania tokena KSeF" resp.detail)
  else .ok resp.body

/-- Embedded status object of the `/auth/{referenceNumber}` poll:
`status.code` / `status.description` / `status.details`. -/
structure PollStatus where
  code : Option Nat
  description : Option String
  details : List String
deriving Repr, DecidableEq

/-- Body of one poll response: `data.get("status", {})`. -/
structure PollBody where
  status : Option PollStatus
deriving Repr, DecidableEq

/-- `status_obj.get("code", 0)` of a poll response. -/
def pollCode (resp : HttpResp PollBody) : Nat :=
  (resp.body.status.bind PollStatus.code).getD 0

/-- `status_obj.get("description", "")` of a poll response. -/
def pollDesc (resp : HttpResp PollBody) : String :=
  (resp.body.status.bind PollStatus.description).getD ""

/-- `status_obj.get("details", [])` of a poll response. -/
def pollDetails (resp : HttpResp PollBody) : List String :=
  (resp.body.status.map PollStatus.details).getD []

/-- Outcome of `_wait_for_auth` together with the number of poll requests
issued and of fixed-interval sleeps performed. -/
structure WaitResult where
  outcome : Except AuthErr Unit
  polls : Nat
  sleeps : Nat
deriving Repr

/-- The polling loop of `KSeFAuth._wait_for_auth`: HTTP 200 with embedded
code 200 confirms (return, no sleep); embedded code at least 400 rejects
immediately (raise, no sleep); every other response — including HTTP 202
and any non-success status — sleeps 1.5 s and polls again; exhausting the
attempts raises the timeout error. -/
def waitForAuthAux (env : Nat → HttpResp PollBody) :
    Nat → Nat → Nat → Nat → WaitResult
  | 0, _, polls, sleeps => ⟨.error .timeout, polls, sleeps⟩
  | remaining + 1, idx, polls, sleeps =>
    let resp := env idx
    if resp.status = 200 then
      if pollCode resp = 200 then ⟨.ok (), polls + 1, sleeps⟩
      else if 400 ≤ pollCode resp then
        ⟨.error (.rejected (pollCode resp) (pollDesc resp) (pollDetails resp)),
          polls + 1, sleeps⟩
      else waitForAuthAux env remaining (idx + 1) (polls + 1) (sleeps + 1)
    else waitForAuthAux env remaining (idx + 1) (polls + 1) (sleeps + 1)

/-- `_wait_for_auth` with its default `max_retries = 15`. -/
def waitForAuth (env : Nat → HttpResp PollBody) : WaitResult :=
  waitForAuthAux env 15 0 0 0

/-- A poll response on which `_wait_for_auth` keeps polling: any
non-200 HTTP status, or an embedded code that is neither 200 nor ≥ 400. -/
def PollPending (resp : HttpResp PollBody) : Prop :=
  resp.status ≠ 200 ∨ (pollCode resp ≠ 200 ∧ pollCode resp < 400)

/-- Body of `/auth/token/redeem` and `/auth/token/refresh`:
`accessToken` / `token` / `refreshToken`, each a string or `{token}`. -/
structure TokensBody where
  accessToken : Option TokVal
  token : Option TokVal
  refreshToken : Option TokVal
deriving Repr, DecidableEq

/-- `KSeFAuth._redeem_token`: raise on non-ok status, return the body. -/
def redeemToken (resp : HttpResp TokensBody) : Except AuthErr TokensBody :=
  if 400 ≤ resp.status then
    .error (.http resp.status "Błąd wymiany tokena na accessToken" resp.detail)
  else .ok resp.body

/-- The mutable token state of a `KSeFAuth` object
(`self.access_token` / `self.refresh_token`). -/
structure AuthState where
  accessToken : Option String
  refreshToken : Option String
deriving Repr, DecidableEq

/-- The network transcript of one `authenticate()` run. -/
structure AuthEnv where
  pubkey : HttpResp PubKeyBody
  challenge : HttpResp ChallengeBody
  submit : HttpResp SubmitBody
  poll : Nat → HttpResp PollBody
  redeem : HttpResp TokensBody
  nowMs : Nat

/-- `KSeFAuth.authenticate`: the six-step handshake.  Returns the final
object state (Python mutates `self` before the trailing access-token
check, so the state is updated even when that check raises) and the
outcome.  The encryption of step 3 feeds only the request body and cannot
fail on key material accepted by `_get_public_key`, so it does not appear
in the state transition. -/
def authenticate (env : AuthEnv) (st : AuthState) : AuthState × Except AuthErr String :=
  match getPublicKey env.pubkey with
  | .error e => (st, .error e)
  | .ok _ =>
    match getChallenge env.challenge with
    | .error e => (st, .error e)
    | .ok ch =>
      let challengeId := pyOr ch.challenge (pyOr ch.referenceNumber (pyOr ch.challengeKey ""))
      if challengeId = "" then (st, .error .noChallenge)
      else
        let _timestampMs := pyOrNat ch.timestampMs (pyOrNat ch.timestamp env.nowMs)
        match sendKsefToken env.submit with
        | .error e => (st, .error e)
        | .ok sb =>
          let authTokenValue := pyOrOpt (sb.authenticationToken.getD none) sb.token
          if pyFalsyStr authTokenValue then (st, .error .noAuthToken)
          else
            match (waitForAuth env.poll).outcome with
            | .error e => (st, .error e)
            | .ok () =>
              match redeemToken env.redeem with
              | .error e => (st, .error e)
              | .ok tok =>
                let newAccess := resolveTok (pyOrTok tok.accessToken tok.token)
                let newRefresh := resolveTok tok.refreshToken
                let st' : AuthState := ⟨newAccess, newRefresh⟩
                if pyFalsyStr newAccess then (st', .error .noAccessToken)
                else (st', .ok (newAccess.getD ""))

/-- `KSeFAuth.refresh`: raises `notAuthenticated` when the stored refresh
token is falsy, raises on non-ok status, otherwise replaces both tokens in
place (keeping the old refresh token when the response omits the field)
and returns the new access token. -/
def refreshModel (st : AuthState) (resp : HttpResp TokensBody) :
    AuthState × Except AuthErr (Option String) :=
  if pyFalsyStr st.refreshToken then (st, .error .notAuthenticated)
  else if 400 ≤ resp.status then
    (st, .error (.http resp.status "Błąd odświeżania accessToken" resp.detail))
  else
    let newAccess := resolveTok (pyOrTok resp.body.accessToken resp.body.token)
    let newRefresh :=
      match resp.body.refreshToken with
      | some v => resolveTok (some v)
      | none => st.refreshToken
    (⟨newAccess, newRefresh⟩, .ok newAccess)

/-! ### Concrete auth transcripts used in witnesses and counterexamples -/

/-- Poll stream answering HTTP 500 forever. -/
def c5wPollEnv : Nat → HttpResp PollBody := fun _ => ⟨500, ⟨none⟩, "Internal Server Error"⟩

/-- Poll stream answering a rejection (embedded code 400) immediately. -/
def c6wEnv : Nat → HttpResp PollBody :=
  fun _ => ⟨200, ⟨some ⟨some 400, some "odrzucono", ["szczegóły"]⟩⟩, ""⟩

/-- Poll stream answering a confirmation (embedded code 200) immediately. -/
def cOkPollEnv : Nat → HttpResp PollBody := fun _ => ⟨200, ⟨some ⟨some 200, none, []⟩⟩, ""⟩

/-- A successful handshake transcript whose redeem response carries an
access token but no refresh token. -/
def c7wEnv : AuthEnv where
  pubkey := ⟨200, ⟨[⟨some "Q0VSVA==", none, none⟩]⟩, ""⟩
  challenge := ⟨200, ⟨some "ch-1", none, none, some 1700000000000, none⟩, ""⟩
  submit := ⟨200, ⟨some "ref-1", none, some (some "tmp-token"), none⟩, ""⟩
  poll := cOkPollEnv
  redeem := ⟨200, ⟨some (.str "ACCESS-A"), none, none⟩, ""⟩
  nowMs := 1700000000000

/-- A handshake transcript whose redeem response carries a refresh token
but no access token, so `authenticate` raises after storing it. -/
def c7wEnv2 : AuthEnv where
  pubkey := ⟨200, ⟨[⟨some "Q0VSVA==", none, none⟩]⟩, ""⟩
  challenge := ⟨200, ⟨some "ch-2", none, none, some 1700000000000, none⟩, ""⟩
  submit := ⟨200, ⟨some "ref-2", none, some (some "tmp-token"), none⟩, ""⟩
  poll := cOkPollEnv
  redeem := ⟨200, ⟨none, none, some (.str "REFRESH-R")⟩, ""⟩
  nowMs := 1700000000000

/-- A successful refresh response rotating both tokens. -/
def c7wRefreshResp : HttpResp TokensBody :=
  ⟨200, ⟨some (.str "ACCESS-B"), none, some (.str "REFRESH-R2")⟩, ""⟩

/-! ## Token encryption (`KSeFAuth._encrypt_token`)

`_encrypt_token` builds the UTF-8 bytes of `f"{self.ksef_token}|{timestamp_ms}"`,
encrypts them with RSA-OAEP (MGF1/SHA-256, no label) under the fetched
public key, and returns the base64 of the ciphertext.  The `cryptography`
library primitives are external: the RSA key pair is abstracted as an
`OAEPScheme` — an encrypt/decrypt pair satisfying the library contract
that decryption with the matching private key inverts encryption and that
ciphertexts are byte strings.  UTF-8 and base64, which the source relies
on for the exact plaintext framing, are modeled concretely (over byte
values 0..255 and Unicode code points) and proved to round-trip. -/

/-- The base64 alphabet as ASCII codes (`A-Z a-z 0-9 + /`). -/
def b64Code (v : Nat) : Nat :=
  if v < 26 then 65 + v
  else if v < 52 then 97 + (v - 26)
  else if v < 62 then 48 + (v - 52)
  else if v = 62 then 43
  else 47

/-- Inverse lookup of the base64 alphabet. -/
def b64Val (n : Nat) : Option Nat :=
  if 65 ≤ n ∧ n ≤ 90 then some (n - 65)
  else if 97 ≤ n ∧ n ≤ 122 then some (n - 97 + 26)
  else if 48 ≤ n ∧ n ≤ 57 then some (n - 48 + 52)
  else if n = 43 then some 62
  else if n = 47 then some 63
  else none

/-- `base64.b64encode` over byte values: groups of three bytes become four
alphabet codes; the final group of one or two bytes is padded with `=`
(ASCII 61). -/
def b64encodeBytes : List Nat → List Nat
  | [] => []
  | [b1] => [b64Code (b1 / 4), b64Code (b1 % 4 * 16), 61, 61]
  | [b1, b2] =>
    [b64Code (b1 / 4), b64Code (b1 % 4 * 16 + b2 / 16), b64Code (b2 % 16 * 4), 61]
  | b1 :: b2 :: b3 :: rest =>
    b64Code (b1 / 4) :: b64Code (b1 % 4 * 16 + b2 / 16) ::
      b64Code (b2 % 16 * 4 + b3 / 64) :: b64Code (b3 % 64) :: b64encodeBytes rest

/-- Standard base64 decoding over ASCII codes (padding only in the final
quadruple), the inverse of `b64encodeBytes`. -/
def b64decodeCodes : List Nat → Option (List Nat)
  | [] => some []
  | c1 :: c2 :: c3 :: c4 :: rest =>
    match b64Val c1, b64Val c2 with
    | some v1, some v2 =>
      if c3 = 61 then
        if c4 = 61 ∧ rest = [] then some [v1 * 4 + v2 / 16] else none
      else
        match b64Val c3 with
        | some v3 =>
          if c4 = 61 then
            if rest = [] then some [v1 * 4 + v2 / 16, v2 % 16 * 16 + v3 / 4] else none
          else
            match b64Val c4 with
            | some v4 =>
              (b64decodeCodes rest).map
                (fun tail => (v1 * 4 + v2 / 16) :: (v2 % 16 * 16 + v3 / 4) ::
                  (v3 % 4 * 64 + v4) :: tail)
            | none => none
        | none => none
    | _, _ => none
  | _ => none

/-- UTF-8 encoding of one Unicode code point (1 to 4 bytes). -/
def utf8EncodeChar (c : Nat) : List Nat :=
  if c < 128 then [c]
  else if c < 2048 then [192 + c / 64, 128 + c % 64]
  else if c < 65536 then [224 + c / 4096, 128 + c / 64 % 64, 128 + c % 64]
  else [240 + c / 262144, 128 + c / 4096 % 64, 128 + c / 64 % 64, 128 + c % 64]

/-- UTF-8 encoding of a code-point sequence (`str.encode("utf-8")`). -/
def utf8Encode : List Nat → List Nat
  | [] => []
  | c :: rest => utf8EncodeChar c ++ utf8Encode rest

/-- Decode one UTF-8 sequence from the head of a byte list, returning the
code point and the remaining bytes. -/
def utf8DecodeOne (bytes : List Nat) : Option (Nat × List Nat) :=
  match bytes with
  | [] => none
  | b :: rest =>
    if b < 128 then some (b, rest)
    else if b < 192 then none
    else if b < 224 then
      match rest with
      | b2 :: rest2 =>
        if 128 ≤ b2 ∧ b2 < 192 then some ((b - 192) * 64 + (b2 - 128), rest2)
        else none
      | [] => none
    else if b < 240 then
      match rest with
      | b2 :: b3 :: rest3 =>
        if (128 ≤ b2 ∧ b2 < 192) ∧ (128 ≤ b3 ∧ b3 < 192) then
          some ((b - 224) * 4096 + (b2 - 128) * 64 + (b3 - 128), rest3)
        else none
      | _ => none
    else
      match rest with
      | b2 :: b3 :: b4 :: rest4 =>
        if (128 ≤ b2 ∧ b2 < 192) ∧ (128 ≤ b3 ∧ b3 < 192) ∧ (128 ≤ b4 ∧ b4 < 192) then
          some ((b - 240) * 262144 + (b2 - 128) * 4096 + (b3 - 128) * 64 + (b4 - 128),
            rest4)
        else none
      | _ => none

/-- UTF-8 decoding back to code points (fuel-indexed; each decoded code
point consumes at least one byte, so the byte count is enough fuel). -/
def utf8DecodeAux : Nat → List Nat → Option (List Nat)
  | _, [] => some []
  | 0, _ :: _ => none
  | fuel + 1, b :: rest =>
    match utf8DecodeOne (b :: rest) with
    | some (c, remaining) => (utf8DecodeAux fuel remaining).map (c :: ·)
    | none => none

/-- UTF-8 decoding, the inverse of `utf8Encode`. -/
def utf8Decode (bytes : List Nat) : Option (List Nat) :=
  utf8DecodeAux bytes.length bytes

/-- The external RSA-OAEP(SHA-256, no label) primitive of the
`cryptography` library, abstracted by its contract: decrypting with the
matching private key inverts encryption, and ciphertexts are byte
strings. -/
structure OAEPScheme where
  encrypt : List Nat → List Nat
  decrypt : List Nat → List Nat
  decrypt_encrypt : ∀ m, decrypt (encrypt m) = m
  encrypt_bytes : ∀ m, (∀ b ∈ m, b < 256) → ∀ b ∈ encrypt m, b < 256

/-- The trivial scheme satisfying the OAEP contract (used to instantiate
the round-trip theorem). -/
def idScheme : OAEPScheme :=
  ⟨id, id, fun _ => rfl, fun _ h => h⟩

/-- The pipe-joined plaintext `f"{self.ksef_token}|{timestamp_ms}"`. -/
def tokenPlaintext (ksefToken : String) (timestampMs : Nat) : String :=
  ksefToken ++ "|" ++ toString timestampMs

/-- `KSeFAuth._encrypt_token` under an abstract key pair: UTF-8 encode the
pipe-joined plaintext (and nothing else — no trailing bytes), encrypt,
base64-encode.  The result is the ASCII code sequence of the returned
base64 string (`.decode("ascii")` is the identity on these codes). -/
def encryptTokenBytes (s : OAEPScheme) (ksefToken : String) (timestampMs : Nat) :
    List Nat :=
  b64encodeBytes (s.encrypt
    (utf8Encode ((tokenPlaintext ksefToken timestampMs).data.map Char.toNat)))

end KSeF

/-! ## C9 : unknown environment selectors fall back to the test URL -/

/-- C9: for every environment-selector string other than `"test"` and
`"prod"`, both `KSeFAuth.__init__` and `main.py`'s `BASE_URL` selection
yield the test base URL, no error is raised (the selection is total), and
the production endpoint is never selected. -/
theorem c9_env_fallback (env : String) (ht : env ≠ "test") (hp : env ≠ "prod") :
    KSeF.authBaseUrl env = KSeF.authTestUrl ∧
    KSeF.mainBaseUrl env = KSeF.authTestUrl ∧
    KSeF.authBaseUrl env ≠ KSeF.authProdUrl ∧
    KSeF.mainBaseUrl env ≠ KSeF.authProdUrl := by
  unfold KSeF.authBaseUrl KSeF.mainBaseUrl
  simp only [if_neg ht, if_neg hp]
  refine ⟨trivial, trivial, ?_, ?_⟩ <;> · unfold KSeF.authTestUrl KSeF.authProdUrl; decide

/-- Witness for C9 at the concrete misspelling `"production"`. -/
theorem c9_env_fallback_witness :
    KSeF.authBaseUrl "production" = KSeF.authTestUrl ∧
    KSeF.mainBaseUrl "production" = KSeF.authTestUrl ∧
    KSeF.authBaseUrl "production" ≠ KSeF.authProdUrl ∧
    KSeF.mainBaseUrl "production" ≠ KSeF.authProdUrl :=
  c9_env_fallback "production" (by decide) (by decide)

/-! ## Calendar lemmas for the windowing logic -/

namespace KSeF

theorem daysInMonth_ge (y m : Nat) : 28 ≤ daysInMonth y m := by
  unfold daysInMonth; split_ifs <;> omega

theorem daysInMonth_le (y m : Nat) : daysInMonth y m ≤ 31 := by
  unfold daysInMonth; split_ifs <;> omega

theorem daysInMonth_twelve (y : Nat) : daysInMonth y 12 = 31 := rfl

theorem Date.Valid.nextDay {dt : Date} (h : dt.Valid) : dt.nextDay.Valid := by
  have ha := daysInMonth_ge dt.y (dt.m + 1)
  have hb := daysInMonth_ge (dt.y + 1) 1
  obtain ⟨h1, h2, h3, h4⟩ := h
  unfold Date.Valid Date.nextDay
  split_ifs with hA hB <;> dsimp only <;> omega

theorem Date.Valid.prevDay {dt : Date} (h : dt.Valid) : dt.prevDay.Valid := by
  have ha := daysInMonth_ge dt.y (dt.m - 1)
  have hb := daysInMonth_le dt.y (dt.m - 1)
  have hc := daysInMonth_twelve (dt.y - 1)
  obtain ⟨h1, h2, h3, h4⟩ := h
  unfold Date.Valid Date.prevDay
  split_ifs with hA hB <;> dsimp only <;> omega

theorem Date.Valid.addMonths {dt : Date} (h : dt.Valid) (k : Nat) :
    (dt.addMonths k).Valid := by
  have ha := daysInMonth_ge (dt.y + (dt.m - 1 + k) / 12) ((dt.m - 1 + k) % 12 + 1)
  obtain ⟨h1, h2, h3, h4⟩ := h
  unfold Date.Valid Date.addMonths
  dsimp only
  omega

theorem Date.ord_lt_nextDay {dt : Date} (h : dt.Valid) : dt.ord < dt.nextDay.ord := by
  have ha := daysInMonth_le dt.y dt.m
  obtain ⟨h1, h2, h3, h4⟩ := h
  unfold Date.nextDay Date.ord
  split_ifs with hA hB <;> dsimp only <;> omega

theorem Date.ord_inj {a b : Date} (ha : a.Valid) (hb : b.Valid) (h : a.ord = b.ord) :
    a = b := by
  have hda := daysInMonth_le a.y a.m
  have hdb := daysInMonth_le b.y b.m
  obtain ⟨a1, a2, a3, a4⟩ := ha
  obtain ⟨b1, b2, b3, b4⟩ := hb
  unfold Date.ord at h
  obtain ⟨ya, ma, da⟩ := a
  obtain ⟨yb, mb, db⟩ := b
  simp only [Date.mk.injEq]
  dsimp only at *
  omega

/-- `nextDay` is the successor in the calendar order: no valid date lies
strictly between a valid date and its next day. -/
theorem Date.nextDay_minimal {e t : Date} (he : e.Valid) (ht : t.Valid)
    (hlt : e.ord < t.ord) : e.nextDay.ord ≤ t.ord := by
  obtain ⟨h1, h2, h3, h4⟩ := he
  obtain ⟨t1, t2, t3, t4⟩ := ht
  have hde := daysInMonth_le e.y e.m
  have hdt := daysInMonth_le t.y t.m
  unfold Date.ord at hlt ⊢
  unfold Date.nextDay
  split_ifs with hA hB <;> dsimp only
  · omega
  · -- e.d = daysInMonth e.y e.m, e.m < 12
    rcases Nat.lt_trichotomy t.y e.y with hy | hy | hy
    · omega
    · rcases Nat.lt_trichotomy t.m e.m with hm | hm | hm
      · omega
      · have hbridge : daysInMonth t.y t.m = daysInMonth e.y e.m := by rw [hy, hm]
        omega
      · omega
    · omega
  · -- e.m = 12, e.d = daysInMonth e.y 12 = 31
    have hm12 : e.m = 12 := by omega
    have h31 : daysInMonth e.y e.m = 31 := by rw [hm12]; exact daysInMonth_twelve e.y
    omega

theorem Date.ord_le_prevDay_addMonths3 {dt : Date} (h : dt.Valid) :
    dt.ord ≤ ((dt.addMonths 3).prevDay).ord := by
  obtain ⟨h1, h2, h3, h4⟩ := h
  have hd := daysInMonth_le dt.y dt.m
  have ha1 := daysInMonth_ge (dt.y + (dt.m - 1 + 3) / 12) ((dt.m - 1 + 3) % 12 + 1)
  have ha2 := daysInMonth_le (dt.y + (dt.m - 1 + 3) / 12) ((dt.m - 1 + 3) % 12 + 1)
  have hb1 := daysInMonth_ge (dt.y + (dt.m - 1 + 3) / 12) ((dt.m - 1 + 3) % 12 + 1 - 1)
  have hb2 := daysInMonth_le (dt.y + (dt.m - 1 + 3) / 12) ((dt.m - 1 + 3) % 12 + 1 - 1)
  unfold Date.addMonths Date.prevDay Date.ord
  dsimp only
  split_ifs <;> dsimp only <;> omega

theorem Date.minD_valid {a b : Date} (ha : a.Valid) (hb : b.Valid) : (a.minD b).Valid := by
  unfold Date.minD; split_ifs <;> assumption

theorem Date.minD_ord_le_left (a b : Date) : (a.minD b).ord ≤ a.ord := by
  unfold Date.minD; split_ifs <;> omega

theorem Date.minD_ord_le_right (a b : Date) : (a.minD b).ord ≤ b.ord := by
  unfold Date.minD; split_ifs <;> omega

theorem Date.le_minD {s : Date} {a b : Date} (h1 : s.ord ≤ a.ord) (h2 : s.ord ≤ b.ord) :
    s.ord ≤ (a.minD b).ord := by
  unfold Date.minD; split_ifs <;> omega

theorem fetchAllWindowsAux_eq_nil {dtTo s : Date} (h : dtTo.ord < s.ord) (fuel : Nat) :
    fetchAllWindowsAux dtTo fuel s = [] := by
  cases fuel with
  | zero => rfl
  | succ f => unfold fetchAllWindowsAux; rw [if_neg (by omega)]

/-- Invariant of the window-producing loop of `fetch_all`, proved by
induction on the fuel: the emitted list starts at `s`, ends at `dtTo`, is
chained by `nextDay`, every window is valid, ordered and at most three
months minus one day wide, and windows are pairwise disjoint. -/
theorem fetchAllWindowsAux_spec :
    ∀ (fuel : Nat) (s dtTo : Date), s.Valid → dtTo.Valid →
      s.ord ≤ dtTo.ord → dtTo.ord + 1 - s.ord ≤ fuel →
      ((fetchAllWindowsAux dtTo fuel s).head?.map DateWindow.window_start = some s) ∧
      ((fetchAllWindowsAux dtTo fuel s).getLast?.map DateWindow.window_end = some dtTo) ∧
      List.Chain' (fun a b => b.window_start = a.window_end.nextDay)
        (fetchAllWindowsAux dtTo fuel s) ∧
      (∀ w ∈ fetchAllWindowsAux dtTo fuel s,
        w.window_start.Valid ∧ w.window_end.Valid ∧
        s.ord ≤ w.window_start.ord ∧
        w.window_start.ord ≤ w.window_end.ord ∧
        w.window_end.ord ≤ ((w.window_start.addMonths 3).prevDay).ord) ∧
      List.Pairwise (fun a b => a.window_end.ord < b.window_start.ord)
        (fetchAllWindowsAux dtTo fuel s) := by
  intro fuel
  induction fuel with
  | zero => intro s dtTo _ _ hle hf; omega
  | succ f ih =>
    intro s dtTo hs ht hle hf
    have hev : (Date.minD ((s.addMonths 3).prevDay) dtTo).Valid :=
      Date.minD_valid ((hs.addMonths 3).prevDay) ht
    have hse : s.ord ≤ (Date.minD ((s.addMonths 3).prevDay) dtTo).ord :=
      Date.le_minD (Date.ord_le_prevDay_addMonths3 hs) hle
    have het : (Date.minD ((s.addMonths 3).prevDay) dtTo).ord ≤ dtTo.ord :=
      Date.minD_ord_le_right _ _
    have hspan : (Date.minD ((s.addMonths 3).prevDay) dtTo).ord ≤
        ((s.addMonths 3).prevDay).ord :=
      Date.minD_ord_le_left _ _
    have hstep : fetchAllWindowsAux dtTo (f + 1) s =
        ⟨s, Date.minD ((s.addMonths 3).prevDay) dtTo⟩ ::
          fetchAllWindowsAux dtTo f (Date.minD ((s.addMonths 3).prevDay) dtTo).nextDay := by
      rw [fetchAllWindowsAux, if_pos hle]
    set e := Date.minD ((s.addMonths 3).prevDay) dtTo with he
    rw [hstep]
    by_cases hnext : e.nextDay.ord ≤ dtTo.ord
    · have hnv : e.nextDay.Valid := hev.nextDay
      have hfuel : dtTo.ord + 1 - e.nextDay.ord ≤ f := by
        have := Date.ord_lt_nextDay hev
        omega
      obtain ⟨ih1, ih2, ih3, ih4, ih5⟩ := ih e.nextDay dtTo hnv ht hnext hfuel
      obtain ⟨w1, rest, hrest⟩ :
          ∃ w1 rest, fetchAllWindowsAux dtTo f e.nextDay = w1 :: rest := by
        cases hq : fetchAllWindowsAux dtTo f e.nextDay with
        | nil => rw [hq] at ih1; simp at ih1
        | cons a l => exact ⟨a, l, rfl⟩
      refine ⟨by simp, ?_, ?_, ?_, ?_⟩
      · rw [hrest] at ih2 ⊢
        simpa using ih2
      · rw [hrest] at ih3 ih1 ⊢
        have hw1 : w1.window_start = e.nextDay := by simpa using ih1
        exact List.Chain'.cons (by simpa using hw1) ih3
      · intro w hw
        rcases List.mem_cons.mp hw with hw | hw
        · subst hw
          exact ⟨hs, hev, le_refl _, hse, hspan⟩
        · obtain ⟨hv1, hv2, hge, hio, hsp⟩ := ih4 w hw
          have := Date.ord_lt_nextDay hev
          exact ⟨hv1, hv2, by omega, hio, hsp⟩
      · refine List.pairwise_cons.mpr ⟨?_, ih5⟩
        intro b hb
        obtain ⟨_, _, hge, _, _⟩ := ih4 b hb
        have := Date.ord_lt_nextDay hev
        dsimp only
        omega
    · have heq : e = dtTo := by
        rcases Nat.lt_or_ge e.ord dtTo.ord with hlt | hge
        · exact absurd (Date.nextDay_minimal hev ht hlt) hnext
        · exact Date.ord_inj hev ht (by omega)
      have hrest : fetchAllWindowsAux dtTo f e.nextDay = [] :=
        fetchAllWindowsAux_eq_nil (by have := Date.ord_lt_nextDay hev; omega) f
      rw [hrest]
      refine ⟨by simp, by simp [heq], by simp, ?_, by simp⟩
      intro w hw
      have hw' : w = ⟨s, e⟩ := by simpa using hw
      subst hw'
      exact ⟨hs, hev, le_refl _, hse, hspan⟩

end KSeF

/-! ## C1 : the DateWindow partition of `fetch_all` -/

/-- C1: for every valid pair of dates with rangeStart at most rangeEnd, the
DateWindow sequence generated by `fetch_all` starts exactly at rangeStart,
ends exactly at rangeEnd, is contiguous (each start is the previous end
plus one day), each window is nonempty and spans at most three calendar
months minus one day, and the windows are pairwise non-overlapping. -/
theorem c1_window_partition (dtFrom dtTo : KSeF.Date)
    (hf : dtFrom.Valid) (ht : dtTo.Valid) (hle : dtFrom.ord ≤ dtTo.ord) :
    ((KSeF.fetchAllWindows dtFrom dtTo).head?.map
        KSeF.DateWindow.window_start = some dtFrom) ∧
    ((KSeF.fetchAllWindows dtFrom dtTo).getLast?.map
        KSeF.DateWindow.window_end = some dtTo) ∧
    List.Chain' (fun a b => b.window_start = a.window_end.nextDay)
      (KSeF.fetchAllWindows dtFrom dtTo) ∧
    (∀ w ∈ KSeF.fetchAllWindows dtFrom dtTo,
      w.window_start.ord ≤ w.window_end.ord ∧
      w.window_end.ord ≤ ((w.window_start.addMonths 3).prevDay).ord) ∧
    List.Pairwise (fun a b => a.window_end.ord < b.window_start.ord)
      (KSeF.fetchAllWindows dtFrom dtTo) := by
  obtain ⟨h1, h2, h3, h4, h5⟩ :=
    KSeF.fetchAllWindowsAux_spec (dtTo.ord + 1 - dtFrom.ord) dtFrom dtTo hf ht hle
      (le_refl _)
  exact ⟨h1, h2, h3, fun w hw => ⟨(h4 w hw).2.2.2.1, (h4 w hw).2.2.2.2⟩, h5⟩

/-- Witness for C1 at the concrete range 2025-01-01 .. 2025-12-31 (the
default `.env` range of `main.py`). -/
theorem c1_window_partition_witness :
    (KSeF.Date.mk 2025 1 1).Valid ∧ (KSeF.Date.mk 2025 12 31).Valid ∧
    (KSeF.Date.mk 2025 1 1).ord ≤ (KSeF.Date.mk 2025 12 31).ord ∧
    (((KSeF.fetchAllWindows ⟨2025, 1, 1⟩ ⟨2025, 12, 31⟩).head?.map
        KSeF.DateWindow.window_start = some ⟨2025, 1, 1⟩) ∧
    ((KSeF.fetchAllWindows ⟨2025, 1, 1⟩ ⟨2025, 12, 31⟩).getLast?.map
        KSeF.DateWindow.window_end = some ⟨2025, 12, 31⟩) ∧
    List.Chain' (fun a b => b.window_start = a.window_end.nextDay)
      (KSeF.fetchAllWindows ⟨2025, 1, 1⟩ ⟨2025, 12, 31⟩) ∧
    (∀ w ∈ KSeF.fetchAllWindows ⟨2025, 1, 1⟩ ⟨2025, 12, 31⟩,
      w.window_start.ord ≤ w.window_end.ord ∧
      w.window_end.ord ≤ ((w.window_start.addMonths 3).prevDay).ord) ∧
    List.Pairwise (fun a b => a.window_end.ord < b.window_start.ord)
      (KSeF.fetchAllWindows ⟨2025, 1, 1⟩ ⟨2025, 12, 31⟩)) :=
  ⟨by decide, by decide, by decide,
    c1_window_partition ⟨2025, 1, 1⟩ ⟨2025, 12, 31⟩ (by decide) (by decide) (by decide)⟩

/-! ## Lemmas on the page-fetching loops -/

namespace KSeF

theorem Serves.shift {env : Nat → Reply} {r : Nat} {f : PreFail} {fails : List PreFail}
    {page : Page} (h : Serves env r (f :: fails) page) : Serves env (r + 1) fails page := by
  obtain ⟨h1, h2⟩ := h
  constructor
  · intro i hi
    have := h1 (i + 1) (by simpa using Nat.succ_lt_succ hi)
    simpa [Nat.add_comm, Nat.add_assoc, Nat.add_left_comm] using this
  · have h3 : r + 1 + fails.length = r + (f :: fails).length := by
      simp [List.length_cons]; omega
    rw [h3]
    exact h2

theorem Serves.head {env : Nat → Reply} {r : Nat} {f : PreFail} {fails : List PreFail}
    {page : Page} (h : Serves env r (f :: fails) page) : env r = f.toReply := by
  have := h.1 0 (by simp)
  simpa using this

/-- Closed form of the `_query_page` retry loop on a request that fails
transiently `fails.length` times and then succeeds, with an attached auth
session: the same page request is retried in place, each 401 triggers one
re-authentication and replaces the held headers with the fresh token, each
429 records its sleep, and the served page is returned. -/
theorem queryPageAux_serves (env : Nat → Reply) (offset : Nat) (dateFrom : String) :
    ∀ (fails : List PreFail) (page : Page) (attempts : Nat) (st : FetchState),
      Serves env st.reqIndex fails page →
      fails.length < attempts →
      queryPageAux env true offset dateFrom attempts st =
        .ok (page, ⟨st.reqIndex + fails.length + 1,
                    st.authGen + count401 fails,
                    (if count401 fails = 0 then st.headers
                     else st.authGen + count401 fails),
                    st.sleeps ++ failSleeps fails⟩) := by
  intro fails
  induction fails with
  | nil =>
    intro page attempts st hserve hlen
    cases attempts with
    | zero => omega
    | succ a =>
      have h0 : env st.reqIndex = .ok page := by simpa using hserve.2
      unfold queryPageAux
      rw [h0]
      simp [count401, failSleeps]
  | cons f rest ih =>
    intro page attempts st hserve hlen
    cases attempts with
    | zero => simp at hlen
    | succ a =>
      have h0 : env st.reqIndex = f.toReply := hserve.head
      have hsh := hserve.shift
      cases f with
      | denied =>
        unfold queryPageAux
        rw [h0]
        have hrec := ih page a
          ⟨st.reqIndex + 1, st.authGen + 1, st.authGen + 1, st.sleeps⟩
          hsh (by simp only [List.length_cons] at hlen; omega)
        simp only [PreFail.toReply, if_true]
        rw [hrec]
        simp only [count401, failSleeps, List.length_cons, Except.ok.injEq,
          Prod.mk.injEq, FetchState.mk.injEq, true_and]
        refine ⟨by omega, by omega, ?_, trivial⟩
        rw [if_neg (Nat.succ_ne_zero (count401 rest))]
        split_ifs <;> omega
      | throttled ra =>
        unfold queryPageAux
        rw [h0]
        have hrec := ih page a
          ⟨st.reqIndex + 1, st.authGen, st.headers,
            st.sleeps ++ [ra.getD SLEEP_BETWEEN_WINDOWS + 2]⟩
          hsh (by simp only [List.length_cons] at hlen; omega)
        simp only [PreFail.toReply]
        rw [hrec]
        simp only [count401, failSleeps, List.length_cons, Except.ok.injEq,
          Prod.mk.injEq, FetchState.mk.injEq, true_and]
        repeat' apply And.intro
        all_goals (first | rfl | omega | simp)

/-- A reply on which the retry loop continues: 429 always, 401 when an
auth session is attached. -/
def Transient (hasAuth : Bool) : Reply → Prop
  | .denied => hasAuth = true
  | .throttled _ => True
  | .ok _ => False
  | .failed _ => False

theorem queryPageAux_exhaust (env : Nat → Reply) (hasAuth : Bool) (offset : Nat)
    (dateFrom : String) :
    ∀ (attempts : Nat) (st : FetchState),
      (∀ i, i < attempts → Transient hasAuth (env (st.reqIndex + i))) →
      queryPageAux env hasAuth offset dateFrom attempts st =
        .error (.retryLimit offset dateFrom) := by
  intro attempts
  induction attempts with
  | zero => intro st _; rfl
  | succ a ih =>
    intro st h
    have h0 := h 0 (by omega)
    simp only [Nat.add_zero] at h0
    unfold queryPageAux
    cases hr : env st.reqIndex with
    | ok page => rw [hr] at h0; simp [Transient] at h0
    | denied =>
      rw [hr] at h0
      have hAuth : hasAuth = true := h0
      subst hAuth
      rw [if_pos rfl]
      apply ih
      intro i hi
      have := h (i + 1) (by omega)
      simpa [Nat.add_comm, Nat.add_assoc, Nat.add_left_comm] using this
    | throttled ra =>
      apply ih
      intro i hi
      have := h (i + 1) (by omega)
      simpa [Nat.add_comm, Nat.add_assoc, Nat.add_left_comm] using this
    | failed status => rw [hr] at h0; simp [Transient] at h0

end KSeF

namespace KSeF

/-- One pagination step dispatches on the same page in a failing and in a
clean run, so the two runs stay in lockstep: same records, same offsets,
same per-window stopping point. -/
theorem fetchWindowAux_recovery
    (env1 env2 : Nat → Reply) (label dateFrom1 dateFrom2 : String)
    (fails1 fails2 : Nat → List PreFail) (pages : Nat → Page) (r1 r2 : Nat)
    (hs1 : ServesSeq env1 r1 fails1 pages) (hs2 : ServesSeq env2 r2 fails2 pages)
    (hb1 : ∀ k, (fails1 k).length < 5) (hb2 : ∀ k, (fails2 k).length < 5) :
    ∀ (fuel n offset : Nat) (acc : List Invoice) (st1 st2 : FetchState),
      st1.reqIndex = r1 + sumFails fails1 n + n →
      st2.reqIndex = r2 + sumFails fails2 n + n →
      SameRecords r1 r2 fails1 fails2
        (fetchWindowAux env1 true label dateFrom1 fuel offset acc st1)
        (fetchWindowAux env2 true label dateFrom2 fuel offset acc st2) := by
  intro fuel
  induction fuel with
  | zero =>
    intro n offset acc st1 st2 h1 h2
    exact Or.inl ⟨rfl, rfl⟩
  | succ f ih =>
    intro n offset acc st1 st2 h1 h2
    have hsv1 : Serves env1 st1.reqIndex (fails1 n) (pages n) := by rw [h1]; exact hs1 n
    have hsv2 : Serves env2 st2.reqIndex (fails2 n) (pages n) := by rw [h2]; exact hs2 n
    have hq1 := queryPageAux_serves env1 offset dateFrom1 (fails1 n) (pages n) 5 st1
      hsv1 (hb1 n)
    have hq2 := queryPageAux_serves env2 offset dateFrom2 (fails2 n) (pages n) 5 st2
      hsv2 (hb2 n)
    have hr1 : st1.reqIndex + (fails1 n).length + 1 =
        r1 + sumFails fails1 (n + 1) + (n + 1) := by
      simp only [sumFails]; omega
    have hr2 : st2.reqIndex + (fails2 n).length + 1 =
        r2 + sumFails fails2 (n + 1) + (n + 1) := by
      simp only [sumFails]; omega
    rw [fetchWindowAux, fetchWindowAux]
    unfold queryPage
    rw [hq1, hq2]
    dsimp only
    by_cases he : (pages n).invoices.isEmpty
    · rw [if_pos he, if_pos he]
      exact Or.inr ⟨acc, _, _, n + 1, rfl, rfl, hr1, hr2⟩
    · rw [if_neg he, if_neg he]
      by_cases hm : (pages n).hasMore
      · rw [if_pos hm, if_pos hm]
        exact ih (n + 1) (offset + (pages n).invoices.length)
          (acc ++ (pages n).invoices.map fun inv => { inv with typ := label })
          ⟨st1.reqIndex + (fails1 n).length + 1, st1.authGen + count401 (fails1 n),
            (if count401 (fails1 n) = 0 then st1.headers
             else st1.authGen + count401 (fails1 n)),
            st1.sleeps ++ failSleeps (fails1 n)⟩
          ⟨st2.reqIndex + (fails2 n).length + 1, st2.authGen + count401 (fails2 n),
            (if count401 (fails2 n) = 0 then st2.headers
             else st2.authGen + count401 (fails2 n)),
            st2.sleeps ++ failSleeps (fails2 n)⟩
          hr1 hr2
      · rw [if_neg hm, if_neg hm]
        exact Or.inr ⟨_, _, _, n + 1, rfl, rfl, hr1, hr2⟩

/-- Lifting the lockstep relation through the per-window loop of
`fetch_all`. -/
theorem fetchAllRun_recovery
    (env1 env2 : Nat → Reply) (label : String)
    (fails1 fails2 : Nat → List PreFail) (pages : Nat → Page) (r1 r2 : Nat)
    (hs1 : ServesSeq env1 r1 fails1 pages) (hs2 : ServesSeq env2 r2 fails2 pages)
    (hb1 : ∀ k, (fails1 k).length < 5) (hb2 : ∀ k, (fails2 k).length < 5) :
    ∀ (ws : List DateWindow) (fuel n : Nat) (acc : List Invoice) (st1 st2 : FetchState),
      st1.reqIndex = r1 + sumFails fails1 n + n →
      st2.reqIndex = r2 + sumFails fails2 n + n →
      SameRecords r1 r2 fails1 fails2
        (fetchAllRun env1 true label fuel ws acc st1)
        (fetchAllRun env2 true label fuel ws acc st2) := by
  intro ws
  induction ws with
  | nil =>
    intro fuel n acc st1 st2 h1 h2
    exact Or.inr ⟨acc, st1, st2, n, rfl, rfl, h1, h2⟩
  | cons w rest ih =>
    intro fuel n acc st1 st2 h1 h2
    have hw := fetchWindowAux_recovery env1 env2 label (toIso w.window_start false)
      (toIso w.window_start false) fails1 fails2 pages r1 r2 hs1 hs2 hb1 hb2
      fuel n 0 [] st1 st2 h1 h2
    rw [fetchAllRun, fetchAllRun]
    unfold fetchWindow
    rcases hw with ⟨hn1, hn2⟩ | ⟨l, s1, s2, m, he1, he2, hm1, hm2⟩
    · rw [hn1, hn2]
      exact Or.inl ⟨rfl, rfl⟩
    · rw [he1, he2]
      dsimp only
      exact ih fuel m (acc ++ l) s1 s2 hm1 hm2

end KSeF

namespace KSeF

/-- A single 429 followed by success: the loop sleeps
`Retry-After (default 185) + 2` seconds and retries the same request. -/
theorem queryPageAux_throttle_once (env : Nat → Reply) (hasAuth : Bool) (offset : Nat)
    (dateFrom : String) (ra : Option Nat) (page : Page) (st : FetchState) (a : Nat)
    (hserve : Serves env st.reqIndex [PreFail.throttled ra] page) :
    queryPageAux env hasAuth offset dateFrom (a + 2) st =
      .ok (page, ⟨st.reqIndex + 2, st.authGen, st.headers,
                  st.sleeps ++ [ra.getD SLEEP_BETWEEN_WINDOWS + 2]⟩) := by
  have h0 : env st.reqIndex = .throttled ra := by
    have := hserve.1 0 (by simp)
    simpa [PreFail.toReply] using this
  have h1 : env (st.reqIndex + 1) = .ok page := by simpa using hserve.2
  rw [show a + 2 = a + 1 + 1 by rfl]
  rw [queryPageAux, h0]
  dsimp only
  rw [queryPageAux]
  dsimp only
  rw [h1]

/-- A clean reply stream always serves the next page immediately. -/
theorem queryPage_okEnv (pages : Nat → Page) (hasAuth : Bool) (offset : Nat)
    (dateFrom : String) (st : FetchState) :
    queryPage (fun n => Reply.ok (pages n)) hasAuth offset dateFrom st =
      .ok (pages st.reqIndex, { st with reqIndex := st.reqIndex + 1 }) := rfl

theorem fetchWindowAux_some_stop (pages : Nat → Page) (hasAuth : Bool)
    (label dateFrom : String) :
    ∀ (fuel offset : Nat) (acc : List Invoice) (st : FetchState)
      (r : Except FetchFailure (List Invoice × FetchState)),
      fetchWindowAux (fun n => .ok (pages n)) hasAuth label dateFrom fuel offset acc st =
        some r →
      ∃ n, (pages (st.reqIndex + n)).invoices = [] ∨
           (pages (st.reqIndex + n)).hasMore = false := by
  intro fuel
  induction fuel with
  | zero =>
    intro offset acc st r hr
    simp [fetchWindowAux] at hr
  | succ f ih =>
    intro offset acc st r hr
    rw [fetchWindowAux, queryPage_okEnv pages] at hr
    dsimp only at hr
    by_cases he : (pages st.reqIndex).invoices.isEmpty
    · exact ⟨0, Or.inl (by simpa [List.isEmpty_iff] using he)⟩
    · rw [if_neg he] at hr
      by_cases hm : (pages st.reqIndex).hasMore
      · rw [if_pos hm] at hr
        obtain ⟨n, hn⟩ := ih _ _ _ r hr
        refine ⟨n + 1, ?_⟩
        rw [show st.reqIndex + (n + 1) = st.reqIndex + 1 + n by omega]
        exact hn
      · exact ⟨0, Or.inr (by simpa using hm)⟩

theorem fetchWindowAux_stop_some (pages : Nat → Page) (hasAuth : Bool)
    (label dateFrom : String) :
    ∀ (n offset : Nat) (acc : List Invoice) (st : FetchState),
      ((pages (st.reqIndex + n)).invoices = [] ∨
       (pages (st.reqIndex + n)).hasMore = false) →
      ∃ fuel, (fetchWindowAux (fun k => .ok (pages k)) hasAuth label dateFrom
        fuel offset acc st).isSome = true := by
  intro n
  induction n with
  | zero =>
    intro offset acc st hstop
    simp only [Nat.add_zero] at hstop
    refine ⟨1, ?_⟩
    rw [show (1 : Nat) = 0 + 1 by rfl, fetchWindowAux, queryPage_okEnv pages]
    dsimp only
    by_cases he : (pages st.reqIndex).invoices.isEmpty
    · rw [if_pos he]; rfl
    · have hm : (pages st.reqIndex).hasMore = false := by
        rcases hstop with h | h
        · exact absurd (by simp [h, List.isEmpty_iff]) he
        · exact h
      rw [if_neg he]
      simp [hm]
  | succ m ih =>
    intro offset acc st hstop
    by_cases he : (pages st.reqIndex).invoices.isEmpty
    · refine ⟨1, ?_⟩
      rw [show (1 : Nat) = 0 + 1 by rfl, fetchWindowAux, queryPage_okEnv pages]
      dsimp only
      rw [if_pos he]; rfl
    · by_cases hm : (pages st.reqIndex).hasMore
      · have hshift : (pages (({ st with reqIndex := st.reqIndex + 1 } :
            FetchState).reqIndex + m)).invoices = [] ∨
            (pages (({ st with reqIndex := st.reqIndex + 1 } :
            FetchState).reqIndex + m)).hasMore = false := by
          dsimp only
          rw [show st.reqIndex + 1 + m = st.reqIndex + (m + 1) by omega]
          exact hstop
        obtain ⟨fuel, hf⟩ := ih (offset + (pages st.reqIndex).invoices.length)
          (acc ++ (pages st.reqIndex).invoices.map fun inv => { inv with typ := label })
          { st with reqIndex := st.reqIndex + 1 } hshift
        refine ⟨fuel + 1, ?_⟩
        rw [fetchWindowAux, queryPage_okEnv pages]
        dsimp only
        rw [if_neg he, if_pos hm]
        exact hf
      · refine ⟨1, ?_⟩
        rw [show (1 : Nat) = 0 + 1 by rfl, fetchWindowAux, queryPage_okEnv pages]
        dsimp only
        rw [if_neg he]
        simp [Bool.eq_false_iff.mpr hm]

theorem sumFails_nil (n : Nat) : sumFails (fun _ => ([] : List PreFail)) n = 0 := by
  induction n with
  | zero => rfl
  | succ k ih => simp [sumFails, ih]

theorem sumFails_c2w (n : Nat) : sumFails c2wFails (n + 1) = 1 := by
  induction n with
  | zero => rfl
  | succ k ih =>
    show sumFails c2wFails (k + 1) + (c2wFails (k + 1)).length = 1
    rw [ih]
    simp [c2wFails]

end KSeF

/-! ## C2 : 401/429 recovery preserves the accumulated records -/

/-- C2: in any `fetch_all` run whose page requests fail transiently with
401/429 and then succeed within the 5-attempt budget (described by the
script `fails`/`pages`), (a) each `_query_page` call absorbs its failures
in place and returns the served page, re-authenticating once per 401 and
holding the freshest header set, its offset argument unchanged across the
retries, and (b) the full `fetch_all` accumulates exactly the record list
of the equivalent clean run over the same pages: nothing is duplicated or
dropped. -/
theorem c2_recovery_preserves_records
    (env envc : Nat → KSeF.Reply) (fails : Nat → List KSeF.PreFail)
    (pages : Nat → KSeF.Page) (r rc : Nat) (subjectType : String)
    (dtFrom dtTo : KSeF.Date)
    (hs : KSeF.ServesSeq env r fails pages)
    (hsc : KSeF.ServesSeq envc rc (fun _ => []) pages)
    (hb : ∀ k, (fails k).length < 5) :
    (∀ (n offset : Nat) (dateFrom : String) (st : KSeF.FetchState),
      st.reqIndex = r + KSeF.sumFails fails n + n →
      KSeF.queryPage env true offset dateFrom st =
        .ok (pages n,
          ⟨st.reqIndex + (fails n).length + 1,
           st.authGen + KSeF.count401 (fails n),
           (if KSeF.count401 (fails n) = 0 then st.headers
            else st.authGen + KSeF.count401 (fails n)),
           st.sleeps ++ KSeF.failSleeps (fails n)⟩)) ∧
    (∀ (fuel : Nat) (st stc : KSeF.FetchState),
      st.reqIndex = r → stc.reqIndex = rc →
      KSeF.SameRecords r rc fails (fun _ => [])
        (KSeF.fetchAllModel env true subjectType dtFrom dtTo fuel st)
        (KSeF.fetchAllModel envc true subjectType dtFrom dtTo fuel stc)) := by
  constructor
  · intro n offset dateFrom st hst
    have hsv : KSeF.Serves env st.reqIndex (fails n) (pages n) := by
      rw [hst]; exact hs n
    exact KSeF.queryPageAux_serves env offset dateFrom (fails n) (pages n) 5 st hsv (hb n)
  · intro fuel st stc h1 h2
    unfold KSeF.fetchAllModel
    exact KSeF.fetchAllRun_recovery env envc (KSeF.subjectTypeLabel subjectType)
      fails (fun _ => []) pages r rc hs hsc hb (fun k => by simp)
      (KSeF.fetchAllWindows dtFrom dtTo) fuel 0 [] st stc
      (by simp [KSeF.sumFails, h1]) (by simp [KSeF.sumFails, h2])

/-- Witness for C2: one page request fails once with 401 and is recovered;
the run over `c2wEnv` returns the same records as the clean run over
`c2wEnvClean`. -/
theorem c2_recovery_preserves_records_witness :
    KSeF.ServesSeq KSeF.c2wEnv 0 KSeF.c2wFails KSeF.c2wPages ∧
    KSeF.ServesSeq KSeF.c2wEnvClean 0 (fun _ => []) KSeF.c2wPages ∧
    (∀ k, (KSeF.c2wFails k).length < 5) ∧
    KSeF.SameRecords 0 0 KSeF.c2wFails (fun _ => [])
      (KSeF.fetchAllModel KSeF.c2wEnv true "Subject1"
        ⟨2025, 1, 1⟩ ⟨2025, 1, 10⟩ 3 ⟨0, 0, 0, []⟩)
      (KSeF.fetchAllModel KSeF.c2wEnvClean true "Subject1"
        ⟨2025, 1, 1⟩ ⟨2025, 1, 10⟩ 3 ⟨0, 0, 0, []⟩) := by
  have hs : KSeF.ServesSeq KSeF.c2wEnv 0 KSeF.c2wFails KSeF.c2wPages := by
    intro n
    cases n with
    | zero =>
      refine ⟨fun i h => ?_, by decide⟩
      have hi : i = 0 := by simp [KSeF.c2wFails] at h; omega
      subst hi
      rfl
    | succ m =>
      refine ⟨fun i h => ?_, ?_⟩
      · simp [KSeF.c2wFails] at h
      · rw [KSeF.sumFails_c2w m]
        simp [KSeF.c2wFails, KSeF.c2wEnv, KSeF.c2wPages]
  have hsc : KSeF.ServesSeq KSeF.c2wEnvClean 0 (fun _ => []) KSeF.c2wPages := by
    intro n
    refine ⟨fun i h => by simp at h, ?_⟩
    simp [KSeF.c2wEnvClean, KSeF.c2wPages]
  have hb : ∀ k, (KSeF.c2wFails k).length < 5 := by
    intro k
    by_cases h : k = 0 <;> simp [KSeF.c2wFails, h]
  exact ⟨hs, hsc, hb,
    (c2_recovery_preserves_records KSeF.c2wEnv KSeF.c2wEnvClean KSeF.c2wFails
      KSeF.c2wPages 0 0 "Subject1" ⟨2025, 1, 1⟩ ⟨2025, 1, 10⟩ hs hsc hb).2
      3 ⟨0, 0, 0, []⟩ ⟨0, 0, 0, []⟩ rfl rfl⟩

/-! ## C3 : 429 handling — sleep Retry-After + 2, bounded by 5 attempts -/

/-- C3: a page request answered 429 sleeps the server-supplied Retry-After
(185 s when absent) plus 2 seconds and retries the same request; with
Retry-After 10 the recorded wait is exactly 12 s (hence at least 12 s);
after 5 throttled attempts for one page `_query_page` raises the retry
exhaustion `KSeFInvoiceError` carrying the offset and window start, and
`fetch_all` fails with it. -/
theorem c3_throttle_wait_and_budget :
    (∀ (env : Nat → KSeF.Reply) (hasAuth : Bool) (offset : Nat) (dateFrom : String)
        (ra : Option Nat) (page : KSeF.Page) (st : KSeF.FetchState),
      KSeF.Serves env st.reqIndex [KSeF.PreFail.throttled ra] page →
      KSeF.queryPage env hasAuth offset dateFrom st =
        .ok (page, ⟨st.reqIndex + 2, st.authGen, st.headers,
                    st.sleeps ++ [ra.getD KSeF.SLEEP_BETWEEN_WINDOWS + 2]⟩)) ∧
    ((some 10 : Option Nat).getD KSeF.SLEEP_BETWEEN_WINDOWS + 2 = 12 ∧
      12 ≤ (some 10 : Option Nat).getD KSeF.SLEEP_BETWEEN_WINDOWS + 2) ∧
    (∀ (env : Nat → KSeF.Reply) (hasAuth : Bool) (offset : Nat) (dateFrom : String)
        (st : KSeF.FetchState),
      (∀ i, i < 5 → ∃ ra, env (st.reqIndex + i) = .throttled ra) →
      KSeF.queryPage env hasAuth offset dateFrom st =
        .error (.retryLimit offset dateFrom)) ∧
    (∀ (env : Nat → KSeF.Reply) (hasAuth : Bool) (label : String) (fuel : Nat)
        (w : KSeF.DateWindow) (rest : List KSeF.DateWindow)
        (acc : List KSeF.Invoice) (st : KSeF.FetchState),
      (∀ i, i < 5 → ∃ ra, env (st.reqIndex + i) = .throttled ra) →
      KSeF.fetchAllRun env hasAuth label (fuel + 1) (w :: rest) acc st =
        some (.error (.retryLimit 0 (KSeF.toIso w.window_start false)))) := by
  have hexh : ∀ (env : Nat → KSeF.Reply) (hasAuth : Bool) (offset : Nat)
      (dateFrom : String) (st : KSeF.FetchState),
      (∀ i, i < 5 → ∃ ra, env (st.reqIndex + i) = .throttled ra) →
      KSeF.queryPage env hasAuth offset dateFrom st =
        .error (.retryLimit offset dateFrom) := by
    intro env hasAuth offset dateFrom st h
    refine KSeF.queryPageAux_exhaust env hasAuth offset dateFrom 5 st ?_
    intro i hi
    obtain ⟨ra, hra⟩ := h i hi
    rw [hra]
    trivial
  refine ⟨?_, ⟨rfl, by decide⟩, hexh, ?_⟩
  · intro env hasAuth offset dateFrom ra page st hserve
    exact KSeF.queryPageAux_throttle_once env hasAuth offset dateFrom ra page st 3 hserve
  · intro env hasAuth label fuel w rest acc st h
    have hq := hexh env hasAuth 0 (KSeF.toIso w.window_start false) st h
    rw [KSeF.fetchAllRun]
    unfold KSeF.fetchWindow
    rw [KSeF.fetchWindowAux, hq]

/-- Witness for C3: one 429 with Retry-After 10 followed by success records
a 12-second sleep; an always-throttling stream exhausts the budget. -/
theorem c3_throttle_wait_and_budget_witness :
    KSeF.Serves KSeF.c3wEnv 0 [KSeF.PreFail.throttled (some 10)] ⟨[], false⟩ ∧
    KSeF.queryPage KSeF.c3wEnv true 0 "2025-01-01T00:00:00.000Z" ⟨0, 0, 0, []⟩ =
      .ok (⟨[], false⟩, ⟨2, 0, 0, [12]⟩) ∧
    (∀ i, i < 5 → ∃ ra, KSeF.c3wEnv429 ((⟨0, 0, 0, []⟩ : KSeF.FetchState).reqIndex + i) =
      .throttled ra) ∧
    KSeF.queryPage KSeF.c3wEnv429 true 200 "2025-01-01T00:00:00.000Z" ⟨0, 0, 0, []⟩ =
      .error (.retryLimit 200 "2025-01-01T00:00:00.000Z") := by
  have hserve : KSeF.Serves KSeF.c3wEnv 0 [KSeF.PreFail.throttled (some 10)] ⟨[], false⟩ := by
    refine ⟨fun i h => ?_, by decide⟩
    have hi : i = 0 := by simp at h; omega
    subst hi
    rfl
  have hth : ∀ i, i < 5 → ∃ ra,
      KSeF.c3wEnv429 ((⟨0, 0, 0, []⟩ : KSeF.FetchState).reqIndex + i) = .throttled ra :=
    fun i _ => ⟨some 10, rfl⟩
  refine ⟨hserve, ?_, hth, ?_⟩
  · exact c3_throttle_wait_and_budget.1 KSeF.c3wEnv true 0 "2025-01-01T00:00:00.000Z"
      (some 10) ⟨[], false⟩ ⟨0, 0, 0, []⟩ hserve
  · exact c3_throttle_wait_and_budget.2.2.1 KSeF.c3wEnv429 true 200
      "2025-01-01T00:00:00.000Z" ⟨0, 0, 0, []⟩ hth

/-! ## C4 : pagination stops exactly on hasMore = false or an empty page -/

/-- C4: within one window the pagination loop of `_fetch_window` (run
against a server that answers every page request) terminates for some fuel
if and only if some served page is empty or reports `hasMore = false`:
there is no internal page-count cap, so a server that always answers
`hasMore = true` with non-empty pages keeps the loop running at every
fuel, and a server that eventually stops is drained. -/
theorem c4_pagination_stop_condition (pages : Nat → KSeF.Page) (hasAuth : Bool)
    (label dateFrom : String) (offset : Nat) (acc : List KSeF.Invoice)
    (st : KSeF.FetchState) :
    (∃ fuel, (KSeF.fetchWindowAux (fun n => .ok (pages n)) hasAuth label dateFrom
        fuel offset acc st).isSome = true) ↔
    (∃ n, (pages (st.reqIndex + n)).invoices = [] ∨
          (pages (st.reqIndex + n)).hasMore = false) := by
  constructor
  · rintro ⟨fuel, hf⟩
    obtain ⟨r, hr⟩ := Option.isSome_iff_exists.mp hf
    exact KSeF.fetchWindowAux_some_stop pages hasAuth label dateFrom fuel offset acc st r hr
  · rintro ⟨n, hn⟩
    exact KSeF.fetchWindowAux_stop_some pages hasAuth label dateFrom n offset acc st hn

/-! ## C10 : HTTP 401 without an attached auth session fails immediately -/

/-- C10: when the fetcher has no AuthSession handle (`auth=None`), a page
request answered 401 is not retried and triggers no re-authentication:
`_query_page` raises the `KSeFInvoiceError` wrapping status 401
immediately, `_fetch_window` propagates it, and the whole `fetch_all` run
returns only that error, discarding the accumulator. -/
theorem c10_unauthenticated_401_fails_fast
    (env : Nat → KSeF.Reply) (label dateFrom : String) (st : KSeF.FetchState)
    (h401 : env st.reqIndex = .denied) :
    (∀ (a offset : Nat), KSeF.queryPageAux env false offset dateFrom (a + 1) st =
        .error (.http 401 offset dateFrom)) ∧
    (∀ offset : Nat, KSeF.queryPage env false offset dateFrom st =
        .error (.http 401 offset dateFrom)) ∧
    (∀ (fuel offset : Nat) (acc : List KSeF.Invoice),
      KSeF.fetchWindowAux env false label dateFrom (fuel + 1) offset acc st =
        some (.error (.http 401 offset dateFrom))) ∧
    (∀ (fuel : Nat) (w : KSeF.DateWindow) (rest : List KSeF.DateWindow)
        (acc : List KSeF.Invoice),
      KSeF.fetchAllRun env false label (fuel + 1) (w :: rest) acc st =
        some (.error (.http 401 0 (KSeF.toIso w.window_start false)))) := by
  have h1 : ∀ (df : String) (a offset : Nat),
      KSeF.queryPageAux env false offset df (a + 1) st =
        .error (.http 401 offset df) := by
    intro df a offset
    rw [KSeF.queryPageAux, h401]
    rfl
  have h2 : ∀ (df : String) (offset : Nat), KSeF.queryPage env false offset df st =
      .error (.http 401 offset df) := fun df offset => h1 df 4 offset
  have h3 : ∀ (df : String) (fuel offset : Nat) (acc : List KSeF.Invoice),
      KSeF.fetchWindowAux env false label df (fuel + 1) offset acc st =
        some (.error (.http 401 offset df)) := by
    intro df fuel offset acc
    rw [KSeF.fetchWindowAux, h2 df offset]
  have h4 : ∀ (fuel : Nat) (w : KSeF.DateWindow) (rest : List KSeF.DateWindow)
      (acc : List KSeF.Invoice),
      KSeF.fetchAllRun env false label (fuel + 1) (w :: rest) acc st =
        some (.error (.http 401 0 (KSeF.toIso w.window_start false))) := by
    intro fuel w rest acc
    rw [KSeF.fetchAllRun]
    unfold KSeF.fetchWindow
    rw [h3 (KSeF.toIso w.window_start false) fuel 0 []]
  exact ⟨h1 dateFrom, h2 dateFrom, h3 dateFrom, h4⟩

/-- Witness for C10 on the always-401 stream: the run fails at once with
the 401 error and returns no records. -/
theorem c10_unauthenticated_401_fails_fast_witness :
    KSeF.c10wEnv (⟨0, 0, 0, []⟩ : KSeF.FetchState).reqIndex = KSeF.Reply.denied ∧
    KSeF.queryPage KSeF.c10wEnv false 7 "2025-01-01T00:00:00.000Z" ⟨0, 0, 0, []⟩ =
      .error (.http 401 7 "2025-01-01T00:00:00.000Z") ∧
    KSeF.fetchAllRun KSeF.c10wEnv false "Wystawione (sprzedaż)" 1
      [⟨⟨2025, 1, 1⟩, ⟨2025, 3, 31⟩⟩] [] ⟨0, 0, 0, []⟩ =
      some (.error (.http 401 0 (KSeF.toIso ⟨2025, 1, 1⟩ false))) := by
  have h := c10_unauthenticated_401_fails_fast KSeF.c10wEnv "Wystawione (sprzedaż)"
    "2025-01-01T00:00:00.000Z" ⟨0, 0, 0, []⟩ rfl
  exact ⟨rfl, h.2.1 7, h.2.2.2 0 ⟨⟨2025, 1, 1⟩, ⟨2025, 3, 31⟩⟩ [] []⟩

/-! ## Lemmas on the authentication polling loop -/

namespace KSeF

/-- One polling step on any response other than a confirming or rejecting
HTTP 200 just sleeps and retries. -/
theorem waitForAuthAux_step (env : Nat → HttpResp PollBody)
    (remaining idx polls sleeps : Nat) (hp : PollPending (env idx)) :
    waitForAuthAux env (remaining + 1) idx polls sleeps =
      waitForAuthAux env remaining (idx + 1) (polls + 1) (sleeps + 1) := by
  rw [waitForAuthAux]
  by_cases hst : (env idx).status = 200
  · rw [if_pos hst]
    rcases hp with hs | ⟨hc1, hc2⟩
    · exact absurd hst hs
    · rw [if_neg hc1, if_neg (by omega)]
  · rw [if_neg hst]

/-- The polling loop stops at the first rejecting response: `k` pending
responses followed by an HTTP 200 carrying an embedded code of at least
400 yield the rejection error after exactly `k + 1` polls and `k` sleeps. -/
theorem waitForAuthAux_reject (env : Nat → HttpResp PollBody) :
    ∀ (k remaining idx polls sleeps : Nat),
      k < remaining →
      (∀ j, j < k → PollPending (env (idx + j))) →
      (env (idx + k)).status = 200 →
      400 ≤ pollCode (env (idx + k)) →
      waitForAuthAux env remaining idx polls sleeps =
        ⟨.error (.rejected (pollCode (env (idx + k))) (pollDesc (env (idx + k)))
            (pollDetails (env (idx + k)))), polls + k + 1, sleeps + k⟩ := by
  intro k
  induction k with
  | zero =>
    intro remaining idx polls sleeps hrem hpend h200 hcode
    cases remaining with
    | zero => omega
    | succ rem =>
      simp only [Nat.add_zero] at h200 hcode ⊢
      rw [waitForAuthAux]
      rw [if_pos h200, if_neg (by omega), if_pos hcode]
  | succ kk ih =>
    intro remaining idx polls sleeps hrem hpend h200 hcode
    cases remaining with
    | zero => omega
    | succ rem =>
      have hp0 : PollPending (env idx) := by
        have := hpend 0 (by omega)
        simpa using this
      rw [waitForAuthAux_step env rem idx polls sleeps hp0]
      have hidx : ∀ j : Nat, idx + 1 + j = idx + (j + 1) := fun j => by omega
      have hpend' : ∀ j, j < kk → PollPending (env (idx + 1 + j)) := by
        intro j hj
        rw [hidx j]
        exact hpend (j + 1) (by omega)
      have h200' : (env (idx + 1 + kk)).status = 200 := by rw [hidx kk]; exact h200
      have hcode' : 400 ≤ pollCode (env (idx + 1 + kk)) := by rw [hidx kk]; exact hcode
      rw [ih rem (idx + 1) (polls + 1) (sleeps + 1) (by omega) hpend' h200' hcode']
      rw [hidx kk]
      simp only [WaitResult.mk.injEq]
      exact ⟨by trivial, by omega, by omega⟩

end KSeF

/-! ## C5 : non-success statuses — HttpError everywhere except the poll -/

/-- C5 counterexample: a status poll that answers HTTP 500 on every attempt
is treated as still pending — `_wait_for_auth` silently sleeps and retries
15 times and then fails with the timeout error, not with an
HttpError-kind failure wrapping the 500 status.  This refutes the claim
that every AuthSession network call raises an HttpError on a non-success
status. -/
theorem c5_poll_counterexample :
    KSeF.waitForAuth KSeF.c5wPollEnv =
      ⟨.error KSeF.AuthErr.timeout, 15, 15⟩ := rfl

/-- C5 (amended): every AuthSession network call except the status poll —
public-key fetch, challenge, token submission, redeem, refresh — raises
the `KSeFAuthError` wrapping the HTTP status and the best-effort decoded
body whenever the response status is not a success (`ok` is
`status < 400`); the status poll instead treats every response other than
a confirming or rejecting HTTP 200 — including non-success statuses — as
pending and sleeps and retries. -/
theorem c5_nonsuccess_raises_except_poll :
    (∀ resp : KSeF.HttpResp KSeF.PubKeyBody, 400 ≤ resp.status →
      KSeF.getPublicKey resp =
        .error (.http resp.status "Błąd pobierania klucza publicznego" resp.detail)) ∧
    (∀ resp : KSeF.HttpResp KSeF.ChallengeBody, 400 ≤ resp.status →
      KSeF.getChallenge resp =
        .error (.http resp.status "Błąd pobierania challenge" resp.detail)) ∧
    (∀ resp : KSeF.HttpResp KSeF.SubmitBody, 400 ≤ resp.status →
      KSeF.sendKsefToken resp =
        .error (.http resp.status "Błąd wysyłania tokena KSeF" resp.detail)) ∧
    (∀ resp : KSeF.HttpResp KSeF.TokensBody, 400 ≤ resp.status →
      KSeF.redeemToken resp =
        .error (.http resp.status "Błąd wymiany tokena na accessToken" resp.detail)) ∧
    (∀ (st : KSeF.AuthState) (resp : KSeF.HttpResp KSeF.TokensBody),
      KSeF.pyFalsyStr st.refreshToken = false → 400 ≤ resp.status →
      (KSeF.refreshModel st resp).2 =
        .error (.http resp.status "Błąd odświeżania accessToken" resp.detail)) ∧
    (∀ (env : Nat → KSeF.HttpResp KSeF.PollBody) (remaining idx polls sleeps : Nat),
      (env idx).status ≠ 200 →
      KSeF.waitForAuthAux env (remaining + 1) idx polls sleeps =
        KSeF.waitForAuthAux env remaining (idx + 1) (polls + 1) (sleeps + 1)) := by
  refine ⟨?_, ?_, ?_, ?_, ?_, ?_⟩
  · intro resp h
    unfold KSeF.getPublicKey
    rw [if_pos h]
  · intro resp h
    unfold KSeF.getChallenge
    rw [if_pos h]
  · intro resp h
    unfold KSeF.sendKsefToken
    rw [if_pos h]
  · intro resp h
    unfold KSeF.redeemToken
    rw [if_pos h]
  · intro st resp hf h
    unfold KSeF.refreshModel
    rw [hf]
    simp only [Bool.false_eq_true, if_false]
    rw [if_pos h]
  · intro env remaining idx polls sleeps hst
    exact KSeF.waitForAuthAux_step env remaining idx polls sleeps (Or.inl hst)

/-- Witness for the amended C5 at concrete 500 responses. -/
theorem c5_nonsuccess_raises_except_poll_witness :
    (400 ≤ (500 : Nat) ∧
      KSeF.getPublicKey ⟨500, ⟨[]⟩, "upstream error"⟩ =
        .error (.http 500 "Błąd pobierania klucza publicznego" "upstream error")) ∧
    (KSeF.getChallenge ⟨500, ⟨none, none, none, none, none⟩, "e"⟩ =
        .error (.http 500 "Błąd pobierania challenge" "e")) ∧
    (KSeF.sendKsefToken ⟨500, ⟨none, none, none, none⟩, "e"⟩ =
        .error (.http 500 "Błąd wysyłania tokena KSeF" "e")) ∧
    (KSeF.redeemToken ⟨500, ⟨none, none, none⟩, "e"⟩ =
        .error (.http 500 "Błąd wymiany tokena na accessToken" "e")) ∧
    ((KSeF.refreshModel ⟨some "A", some "R"⟩ ⟨500, ⟨none, none, none⟩, "e"⟩).2 =
        .error (.http 500 "Błąd odświeżania accessToken" "e")) ∧
    (KSeF.waitForAuthAux KSeF.c5wPollEnv 15 0 0 0 =
        KSeF.waitForAuthAux KSeF.c5wPollEnv 14 1 1 1) := by
  refine ⟨⟨by omega, ?_⟩, ?_, ?_, ?_, ?_, ?_⟩
  · exact c5_nonsuccess_raises_except_poll.1 ⟨500, ⟨[]⟩, "upstream error"⟩ (by decide)
  · exact c5_nonsuccess_raises_except_poll.2.1 ⟨500, ⟨none, none, none, none, none⟩, "e"⟩
      (by decide)
  · exact c5_nonsuccess_raises_except_poll.2.2.1 ⟨500, ⟨none, none, none, none⟩, "e"⟩
      (by decide)
  · exact c5_nonsuccess_raises_except_poll.2.2.2.1 ⟨500, ⟨none, none, none⟩, "e"⟩
      (by decide)
  · exact c5_nonsuccess_raises_except_poll.2.2.2.2.1 ⟨some "A", some "R"⟩
      ⟨500, ⟨none, none, none⟩, "e"⟩ rfl (by decide)
  · have := c5_nonsuccess_raises_except_poll.2.2.2.2.2 KSeF.c5wPollEnv 14 0 0 0
      (by decide)
    simpa using this

/-! ## C6 : first rejecting poll fails immediately -/

/-- C6: the first poll response that is HTTP 200 with an embedded status
code of at least 400 makes `_wait_for_auth` fail immediately with the
rejection error carrying the server description and details, with no
further polls and no further sleeps: after `k` pending polls the rejection
arrives and the loop has made exactly `k + 1` poll requests and `k`
sleeps; a rejection on the first poll means exactly one poll request. -/
theorem c6_first_poll_rejection (env : Nat → KSeF.HttpResp KSeF.PollBody) (k : Nat)
    (hk : k < 15) (hpend : ∀ j, j < k → KSeF.PollPending (env j))
    (h200 : (env k).status = 200) (hcode : 400 ≤ KSeF.pollCode (env k)) :
    KSeF.waitForAuth env =
      ⟨.error (.rejected (KSeF.pollCode (env k)) (KSeF.pollDesc (env k))
          (KSeF.pollDetails (env k))), k + 1, k⟩ := by
  unfold KSeF.waitForAuth
  have h := KSeF.waitForAuthAux_reject env k 15 0 0 0 hk
    (by simpa using hpend) (by simpa using h200) (by simpa using hcode)
  simpa using h

/-- Witness for C6: a rejection (embedded code 400) on the first poll gives
the rejection error after exactly one poll request and zero sleeps. -/
theorem c6_first_poll_rejection_witness :
    ((KSeF.c6wEnv 0).status = 200 ∧ 400 ≤ KSeF.pollCode (KSeF.c6wEnv 0)) ∧
    KSeF.waitForAuth KSeF.c6wEnv =
      ⟨.error (.rejected 400 "odrzucono" ["szczegóły"]), 1, 0⟩ :=
  ⟨⟨rfl, by decide⟩,
    c6_first_poll_rejection KSeF.c6wEnv 0 (by omega)
      (fun j hj => absurd hj (Nat.not_lt_zero j)) rfl (by decide)⟩

/-! ## C7 : refresh() and its NotAuthenticated condition -/

/-- C7 counterexample: with transcript `c7wEnv` the handshake succeeds but
the redeem response carries no refresh token, so the subsequent `refresh()`
fails with the NotAuthenticated-kind error although a prior
`authenticate()` succeeded; with transcript `c7wEnv2` `authenticate()`
fails (no access token) yet stores the refresh token the response carried,
so the subsequent `refresh()` succeeds although no prior `authenticate()`
succeeded.  Both directions of the claimed equivalence fail on the code. -/
theorem c7_counterexample :
    (KSeF.authenticate KSeF.c7wEnv ⟨none, none⟩).2 = .ok "ACCESS-A" ∧
    (KSeF.refreshModel (KSeF.authenticate KSeF.c7wEnv ⟨none, none⟩).1
        KSeF.c7wRefreshResp).2 = .error .notAuthenticated ∧
    (KSeF.authenticate KSeF.c7wEnv2 ⟨none, none⟩).2 = .error .noAccessToken ∧
    (KSeF.refreshModel (KSeF.authenticate KSeF.c7wEnv2 ⟨none, none⟩).1
        KSeF.c7wRefreshResp).2 = .ok (some "ACCESS-B") :=
  ⟨rfl, rfl, rfl, rfl⟩

/-- C7 (amended): `refresh()` fails with the NotAuthenticated-kind error if
and only if the currently stored refresh token is absent or empty (which a
successful `authenticate` does not guarantee to prevent, and a failed one
does not guarantee to cause); in that case the state is untouched, and
otherwise, on a success status, it replaces both tokens in place applying
the string-or-object normalization to each, keeping the old refresh token
when the response omits the field. -/
theorem c7_refresh_iff_no_stored_token (st : KSeF.AuthState)
    (resp : KSeF.HttpResp KSeF.TokensBody) :
    ((KSeF.refreshModel st resp).2 = .error .notAuthenticated ↔
      KSeF.pyFalsyStr st.refreshToken = true) ∧
    (KSeF.pyFalsyStr st.refreshToken = true → (KSeF.refreshModel st resp).1 = st) ∧
    (KSeF.pyFalsyStr st.refreshToken = false → resp.status < 400 →
      (KSeF.refreshModel st resp).1 =
        ⟨KSeF.resolveTok (KSeF.pyOrTok resp.body.accessToken resp.body.token),
          (match resp.body.refreshToken with
           | some v => KSeF.resolveTok (some v)
           | none => st.refreshToken)⟩ ∧
      (KSeF.refreshModel st resp).2 =
        .ok (KSeF.resolveTok (KSeF.pyOrTok resp.body.accessToken resp.body.token))) := by
  by_cases hf : KSeF.pyFalsyStr st.refreshToken = true
  · refine ⟨⟨fun _ => hf, fun _ => ?_⟩, fun _ => ?_, fun hff _ => ?_⟩
    · unfold KSeF.refreshModel
      rw [if_pos hf]
    · unfold KSeF.refreshModel
      rw [if_pos hf]
    · rw [hf] at hff
      exact absurd hff (by simp)
  · have hf' : KSeF.pyFalsyStr st.refreshToken = false := by
      revert hf
      cases KSeF.pyFalsyStr st.refreshToken <;> simp
    refine ⟨⟨fun h => ?_, fun h => absurd h (by rw [hf']; simp)⟩, fun h => ?_, ?_⟩
    · exfalso
      revert h
      unfold KSeF.refreshModel
      rw [hf']
      simp only [Bool.false_eq_true, if_false]
      by_cases hs : 400 ≤ resp.status
      · rw [if_pos hs]
        simp
      · rw [if_neg hs]
        simp
    · rw [hf'] at h
      exact absurd h (by simp)
    · intro _ hs
      unfold KSeF.refreshModel
      rw [hf']
      simp only [Bool.false_eq_true, if_false]
      rw [if_neg (by omega)]
      exact ⟨rfl, rfl⟩

/-- Witness for the amended C7: a stored refresh token lets `refresh()`
rotate both tokens; an absent one makes it raise without touching the
state. -/
theorem c7_refresh_iff_no_stored_token_witness :
    (KSeF.pyFalsyStr (KSeF.AuthState.mk (some "A") (some "R")).refreshToken = false ∧
      (KSeF.refreshModel ⟨some "A", some "R"⟩ KSeF.c7wRefreshResp).1 =
        ⟨some "ACCESS-B", some "REFRESH-R2"⟩) ∧
    (KSeF.pyFalsyStr (KSeF.AuthState.mk none none).refreshToken = true ∧
      (KSeF.refreshModel ⟨none, none⟩ KSeF.c7wRefreshResp).2 =
        .error .notAuthenticated ∧
      (KSeF.refreshModel ⟨none, none⟩ KSeF.c7wRefreshResp).1 = ⟨none, none⟩) := by
  refine ⟨⟨rfl, ?_⟩, rfl, ?_, ?_⟩
  · exact ((c7_refresh_iff_no_stored_token ⟨some "A", some "R"⟩
      KSeF.c7wRefreshResp).2.2 rfl (by decide)).1
  · exact (c7_refresh_iff_no_stored_token ⟨none, none⟩ KSeF.c7wRefreshResp).1.mpr rfl
  · exact (c7_refresh_iff_no_stored_token ⟨none, none⟩ KSeF.c7wRefreshResp).2.1 rfl

/-! ## Lemmas on base64 and UTF-8 -/

namespace KSeF

theorem b64Code_ne_61 (v : Nat) (h : v < 64) : b64Code v ≠ 61 := by
  unfold b64Code
  split_ifs <;> omega

theorem b64Val_b64Code (v : Nat) (h : v < 64) : b64Val (b64Code v) = some v := by
  unfold b64Code b64Val
  split_ifs <;> first | (simp only [Option.some.injEq]; omega) | omega

theorem b64_roundtrip : ∀ (bytes : List Nat), (∀ b ∈ bytes, b < 256) →
    b64decodeCodes (b64encodeBytes bytes) = some bytes := by
  intro bytes
  induction bytes using b64encodeBytes.induct with
  | case1 => intro _; rfl
  | case2 b1 =>
    intro h
    have hb1 : b1 < 256 := h b1 (by simp)
    show b64decodeCodes [b64Code (b1 / 4), b64Code (b1 % 4 * 16), 61, 61] = some [b1]
    rw [b64decodeCodes]
    rw [b64Val_b64Code (b1 / 4) (by omega), b64Val_b64Code (b1 % 4 * 16) (by omega)]
    dsimp only
    rw [if_pos rfl, if_pos ⟨rfl, rfl⟩]
    simp only [Option.some.injEq, List.cons.injEq, and_true]
    omega
  | case3 b1 b2 =>
    intro h
    have hb1 : b1 < 256 := h b1 (by simp)
    have hb2 : b2 < 256 := h b2 (by simp)
    show b64decodeCodes [b64Code (b1 / 4), b64Code (b1 % 4 * 16 + b2 / 16),
      b64Code (b2 % 16 * 4), 61] = some [b1, b2]
    rw [b64decodeCodes]
    rw [b64Val_b64Code (b1 / 4) (by omega),
      b64Val_b64Code (b1 % 4 * 16 + b2 / 16) (by omega)]
    dsimp only
    rw [if_neg (b64Code_ne_61 (b2 % 16 * 4) (by omega))]
    rw [b64Val_b64Code (b2 % 16 * 4) (by omega)]
    dsimp only
    rw [if_pos rfl, if_pos rfl]
    simp only [Option.some.injEq, List.cons.injEq, and_true]
    constructor <;> omega
  | case4 b1 b2 b3 rest ih =>
    intro h
    have hb1 : b1 < 256 := h b1 (by simp)
    have hb2 : b2 < 256 := h b2 (by simp)
    have hb3 : b3 < 256 := h b3 (by simp)
    have hrest : ∀ b ∈ rest, b < 256 := fun b hb => h b (by simp [hb])
    show b64decodeCodes (b64Code (b1 / 4) :: b64Code (b1 % 4 * 16 + b2 / 16) ::
      b64Code (b2 % 16 * 4 + b3 / 64) :: b64Code (b3 % 64) :: b64encodeBytes rest) =
      some (b1 :: b2 :: b3 :: rest)
    rw [b64decodeCodes]
    rw [b64Val_b64Code (b1 / 4) (by omega),
      b64Val_b64Code (b1 % 4 * 16 + b2 / 16) (by omega)]
    dsimp only
    rw [if_neg (b64Code_ne_61 (b2 % 16 * 4 + b3 / 64) (by omega))]
    rw [b64Val_b64Code (b2 % 16 * 4 + b3 / 64) (by omega)]
    dsimp only
    rw [if_neg (b64Code_ne_61 (b3 % 64) (by omega))]
    rw [b64Val_b64Code (b3 % 64) (by omega)]
    dsimp only
    rw [ih hrest]
    simp only [Option.map_some', Option.some.injEq, List.cons.injEq, and_true]
    refine ⟨by omega, by omega, by omega⟩

theorem utf8EncodeChar_bytes (c : Nat) (hc : c < 1114112) :
    ∀ b ∈ utf8EncodeChar c, b < 256 := by
  unfold utf8EncodeChar
  split_ifs <;> intro b hb <;> simp only [List.mem_cons, List.not_mem_nil, or_false] at hb
  · omega
  · rcases hb with hb | hb <;> omega
  · rcases hb with hb | hb | hb <;> omega
  · rcases hb with hb | hb | hb | hb <;> omega

theorem utf8Encode_bytes : ∀ (cs : List Nat), (∀ c ∈ cs, c < 1114112) →
    ∀ b ∈ utf8Encode cs, b < 256 := by
  intro cs
  induction cs with
  | nil => intro _ b hb; simp [utf8Encode] at hb
  | cons c rest ih =>
    intro h b hb
    rw [utf8Encode] at hb
    rcases List.mem_append.mp hb with hb | hb
    · exact utf8EncodeChar_bytes c (h c (by simp)) b hb
    · exact ih (fun x hx => h x (List.mem_cons_of_mem _ hx)) b hb

theorem utf8DecodeOne_encodeChar (c : Nat) (hc : c < 1114112) (tail : List Nat) :
    utf8DecodeOne (utf8EncodeChar c ++ tail) = some (c, tail) := by
  unfold utf8EncodeChar
  split_ifs with h1 h2 h3
  · simp only [List.cons_append, List.nil_append]
    unfold utf8DecodeOne
    dsimp only
    rw [if_pos h1]
  · simp only [List.cons_append, List.nil_append]
    unfold utf8DecodeOne
    dsimp only
    rw [if_neg (by omega), if_neg (by omega), if_pos (by omega)]
    rw [if_pos (by omega)]
    simp only [Option.some.injEq, Prod.mk.injEq, and_true]
    omega
  · simp only [List.cons_append, List.nil_append]
    unfold utf8DecodeOne
    dsimp only
    rw [if_neg (by omega), if_neg (by omega), if_neg (by omega), if_pos (by omega)]
    rw [if_pos (by omega)]
    simp only [Option.some.injEq, Prod.mk.injEq, and_true]
    omega
  · simp only [List.cons_append, List.nil_append]
    unfold utf8DecodeOne
    dsimp only
    rw [if_neg (by omega), if_neg (by omega), if_neg (by omega), if_neg (by omega)]
    rw [if_pos (by omega)]
    simp only [Option.some.injEq, Prod.mk.injEq, and_true]
    omega

theorem utf8EncodeChar_length_pos (c : Nat) : 1 ≤ (utf8EncodeChar c).length := by
  unfold utf8EncodeChar
  split_ifs <;> simp

theorem utf8DecodeAux_encode : ∀ (cs : List Nat) (fuel : Nat),
    (∀ c ∈ cs, c < 1114112) → (utf8Encode cs).length ≤ fuel →
    utf8DecodeAux fuel (utf8Encode cs) = some cs := by
  intro cs
  induction cs with
  | nil =>
    intro fuel _ _
    cases fuel <;> rfl
  | cons c rest ih =>
    intro fuel h hfuel
    have hc : c < 1114112 := h c (by simp)
    have hrest : ∀ x ∈ rest, x < 1114112 := fun x hx => h x (List.mem_cons_of_mem _ hx)
    have hlen : 1 ≤ (utf8EncodeChar c).length := utf8EncodeChar_length_pos c
    have hlen2 : (utf8Encode (c :: rest)).length =
        (utf8EncodeChar c).length + (utf8Encode rest).length := by
      rw [utf8Encode]
      exact List.length_append _ _
    obtain ⟨b, bs, hcons⟩ : ∃ b bs, utf8Encode (c :: rest) = b :: bs := by
      rw [utf8Encode]
      cases hch : utf8EncodeChar c with
      | nil => rw [hch] at hlen; exact absurd hlen (by simp)
      | cons x xs => exact ⟨x, xs ++ utf8Encode rest, by simp⟩
    cases fuel with
    | zero =>
      exfalso
      omega
    | succ f =>
      rw [hcons, utf8DecodeAux]
      rw [← hcons]
      show (match utf8DecodeOne (utf8Encode (c :: rest)) with
        | some (cp, remaining) => (utf8DecodeAux f remaining).map (cp :: ·)
        | none => none) = some (c :: rest)
      rw [utf8Encode, utf8DecodeOne_encodeChar c hc]
      dsimp only
      rw [ih f hrest (by omega)]
      simp only [Option.map_some']

theorem utf8_roundtrip (cs : List Nat) (h : ∀ c ∈ cs, c < 1114112) :
    utf8Decode (utf8Encode cs) = some cs :=
  utf8DecodeAux_encode cs (utf8Encode cs).length h (le_refl _)

theorem charToNat_lt (c : Char) : c.toNat < 1114112 := by
  have h := c.valid
  unfold UInt32.isValidChar Nat.isValidChar at h
  show c.val.toNat < 1114112
  omega

end KSeF

/-! ## C8 : the encrypted token round-trips to the exact plaintext -/

/-- C8: for every secret string and timestamp, `_encrypt_token` produces
the base64 encoding of the OAEP encryption of the UTF-8 bytes of the
pipe-joined string `"{secret}|{timestamp}"` with no trailing bytes: for
any key pair satisfying the OAEP contract, base64-decoding the produced
credential, decrypting with the matching private key and UTF-8-decoding
recovers exactly the original code points — and hence exactly the
original string. -/
theorem c8_encrypt_token_roundtrip (s : KSeF.OAEPScheme) (ksefToken : String)
    (timestampMs : Nat) :
    (KSeF.b64decodeCodes (KSeF.encryptTokenBytes s ksefToken timestampMs)).bind
        (fun ct => KSeF.utf8Decode (s.decrypt ct)) =
      some ((KSeF.tokenPlaintext ksefToken timestampMs).data.map Char.toNat) ∧
    (KSeF.b64decodeCodes (KSeF.encryptTokenBytes s ksefToken timestampMs)).bind
        (fun ct => (KSeF.utf8Decode (s.decrypt ct)).map
          (fun cps => String.mk (cps.map Char.ofNat))) =
      some (KSeF.tokenPlaintext ksefToken timestampMs) := by
  have hcp : ∀ cp ∈ (KSeF.tokenPlaintext ksefToken timestampMs).data.map Char.toNat,
      cp < 1114112 := by
    intro cp hcpm
    simp only [List.mem_map] at hcpm
    obtain ⟨ch, _, rfl⟩ := hcpm
    exact KSeF.charToNat_lt ch
  have hpt := KSeF.utf8Encode_bytes _ hcp
  have hct := s.encrypt_bytes _ hpt
  have hb64 := KSeF.b64_roundtrip _ hct
  unfold KSeF.encryptTokenBytes
  constructor
  · rw [hb64]
    simp only [Option.some_bind]
    rw [s.decrypt_encrypt]
    exact KSeF.utf8_roundtrip _ hcp
  · rw [hb64]
    simp only [Option.some_bind]
    rw [s.decrypt_encrypt, KSeF.utf8_roundtrip _ hcp]
    simp only [Option.map_some', Option.some.injEq]
    have hmap : ∀ l : List Char, (l.map Char.toNat).map Char.ofNat = l := by
      intro l
      induction l with
      | nil => rfl
      | cons a t iht => simp [iht, Char.ofNat_toNat]
    rw [hmap]

/-- Witness for C8 at the identity scheme and a concrete secret. -/
theorem c8_encrypt_token_roundtrip_witness :
    (KSeF.b64decodeCodes (KSeF.encryptTokenBytes KSeF.idScheme "token-A" 17)).bind
        (fun ct => (KSeF.utf8Decode (KSeF.idScheme.decrypt ct)).map
          (fun cps => String.mk (cps.map Char.ofNat))) =
      some (KSeF.tokenPlaintext "token-A" 17) :=
  (c8_encrypt_token_roundtrip KSeF.idScheme "token-A" 17).2
